import Mathlib

/-!
Verification development for the gh-wt worktree lifecycle manager.

The Go sources are embedded shallowly: filesystem and git-metadata state is an
explicit record, every external git invocation is an atomic fallible operation
driven by an oracle of success bits, and each command flow is a pure function
from (state, inputs, oracle) to (state, outcome, emitted messages).

Source map (file, function -> Lean definition):
  internal/git/git.go  HasUncommittedChanges, GetWorktreeInfo,
      WorktreeIsRegistered, BranchExists         -> Git.HasUncommittedChanges, ...
  cmd/create.go / createWorktree, buildConflictMessage, performCleanup,
      executePostCreation                         -> Cmd.createWorktree, ...
  internal/worktree/worktree.go  Creator.setupWorktree, Creator.Cleanup,
      Remove                                      -> Worktree.setupWorktree, ...
  internal/action/action.go  Execute              -> Action.executeAction, ...
  cmd/remove.go  runRemove, findWorktree          -> Cmd.runRemove, ...
-/

namespace GhWt

/-- A worktree record in git's metadata: its path and checked-out branch
(mirrors `git.WorktreeInfo` in internal/git/git.go). -/
structure WtRecord where
  path : String
  branch : String
deriving Repr, DecidableEq

/-- The world the CLI mutates: directories on disk, git's worktree metadata,
branch refs of the backing repository, which paths have uncommitted changes,
and which paths are git repositories. -/
structure GitState where
  dirs : List String
  worktrees : List WtRecord
  branches : List String
  dirty : List String
  repos : List String
deriving Repr, DecidableEq

namespace GitState

/-- os.Stat existence check (`worktree.Exists` / `worktree.WorktreeExists`). -/
def dirExists (s : GitState) (p : String) : Bool := s.dirs.contains p

/-- Healthy-git `git.WorktreeIsRegistered`: the path appears in worktree metadata. -/
def worktreeIsRegistered (s : GitState) (p : String) : Bool :=
  s.worktrees.any (fun r => r.path == p)

/-- Healthy-git `git.BranchExists`. -/
def branchExists (s : GitState) (b : String) : Bool := s.branches.contains b

/-- Healthy-git `git.HasUncommittedChanges`: `git status --porcelain` run inside
the path; a missing directory makes the subprocess fail, which reads as false. -/
def hasUncommittedChanges (s : GitState) (p : String) : Bool :=
  s.dirs.contains p && s.dirty.contains p

/-- Healthy-git `git.IsGitRepository`. -/
def isGitRepository (s : GitState) (p : String) : Bool := s.repos.contains p

/-- Healthy-git `git.GetWorktreeBranch`: branch of the registered record,
empty string when the path is not registered. -/
def getWorktreeBranch (s : GitState) (p : String) : String :=
  match s.worktrees.find? (fun r => r.path == p) with
  | some r => r.branch
  | none => ""

/-- Effect of a successful `os.RemoveAll p`. -/
def removeAllDir (s : GitState) (p : String) : GitState :=
  { s with dirs := s.dirs.filter (fun x => x != p),
           dirty := s.dirty.filter (fun x => x != p),
           repos := s.repos.filter (fun x => x != p) }

/-- Effect of a successful `git worktree remove`: directory and metadata gone. -/
def gitWorktreeRemove (s : GitState) (p : String) : GitState :=
  { s.removeAllDir p with worktrees := s.worktrees.filter (fun r => r.path != p) }

/-- Effect of a successful `git worktree prune`: records whose directory is
missing from disk are dropped. -/
def gitWorktreePrune (s : GitState) : GitState :=
  { s with worktrees := s.worktrees.filter (fun r => s.dirs.contains r.path) }

/-- Effect of a successful `git branch -D`. -/
def gitBranchDelete (s : GitState) (b : String) : GitState :=
  { s with branches := s.branches.filter (fun x => x != b) }

/-- Effect of a successful `git worktree add -b branch path [ref]`: new
directory, new metadata record, new branch. -/
def gitWorktreeAddNewBranch (s : GitState) (b p : String) : GitState :=
  { dirs := p :: s.dirs, worktrees := ⟨p, b⟩ :: s.worktrees,
    branches := b :: s.branches, dirty := s.dirty, repos := p :: s.repos }

/-- Effect of a successful `git worktree add path branch` (attach to an
existing branch): no new branch is created. -/
def gitWorktreeAddFromBranch (s : GitState) (b p : String) : GitState :=
  { dirs := p :: s.dirs, worktrees := ⟨p, b⟩ :: s.worktrees,
    branches := s.branches, dirty := s.dirty, repos := p :: s.repos }

/-- Effect of a successful `os.MkdirAll` (idempotent). -/
def addDir (s : GitState) (p : String) : GitState :=
  if s.dirs.contains p then s else { s with dirs := p :: s.dirs }

end GitState

/-- The conflict signature derived by the classifier in `createWorktree`. -/
structure ConflictSignature where
  dirExists : Bool
  gitRegistered : Bool
  branchExists : Bool
deriving Repr, DecidableEq

/-- Classifier read: the three existence bits for a target path and branch. -/
def classify (s : GitState) (path branch : String) : ConflictSignature :=
  ⟨s.dirExists path, s.worktreeIsRegistered path, s.branchExists branch⟩

/-- filepath.Join for the paths this model manipulates. -/
def joinPath (a b : String) : String := a ++ "/" ++ b

/- ---------------------------------------------------------------------------
Raw git predicates (internal/git/git.go and the git package file holding
BranchDelete/BranchExists): each consumes the outcome of its underlying git
subprocess as an `Except`.
--------------------------------------------------------------------------- -/

/-- Failure of a git subprocess (non-zero exit or spawn failure). -/
inductive GitErr
  | exitCode (n : Nat)
  | spawnFailure
deriving Repr, DecidableEq

namespace Git

/-- strings.TrimPrefix. -/
def trimLeading (s pre : String) : String :=
  if s.startsWith pre then s.drop pre.length else s

/-- Parser of `git worktree list --porcelain` output embedded in
`git.GetWorktreeInfo` (git.go lines 95-115): a `worktree ` line opens a record,
a `branch ` line sets its branch with `refs/heads/` stripped. -/
def parseWorktreePorcelain (out : String) : List WtRecord :=
  let step := fun (acc : List WtRecord × WtRecord) (line : String) =>
    if line.startsWith "worktree " then
      (if acc.2.path != "" then acc.1 ++ [acc.2] else acc.1, ⟨line.drop 9, ""⟩)
    else if line.startsWith "branch " then
      (acc.1, ⟨acc.2.path, trimLeading (line.drop 7) "refs/heads/"⟩)
    else acc
  let fin := (out.splitOn "\n").foldl step ([], ⟨"", ""⟩)
  if fin.2.path != "" then fin.1 ++ [fin.2] else fin.1

/-- git.GetWorktreeInfo: propagates the listing failure, otherwise parses. -/
def GetWorktreeInfo (raw : Except GitErr String) : Except GitErr (List WtRecord) :=
  match raw with
  | .error e => .error e
  | .ok out => .ok (parseWorktreePorcelain out)

/-- git.HasUncommittedChanges: any git failure reads as "no changes". -/
def HasUncommittedChanges (statusResult : Except GitErr String) : Bool :=
  match statusResult with
  | .error _ => false
  | .ok out => decide (0 < out.trim.length)

/-- git.WorktreeIsRegistered: a listing failure reads as "not registered". -/
def WorktreeIsRegistered (raw : Except GitErr String) (worktreePath : String) : Bool :=
  match GetWorktreeInfo raw with
  | .error _ => false
  | .ok wts => wts.any (fun wt => wt.path == worktreePath)

/-- git.BranchExists: `git show-ref --verify --quiet`; any failure reads as
"branch does not exist". -/
def BranchExists (showRefResult : Except GitErr Unit) : Bool :=
  match showRefResult with
  | .error _ => false
  | .ok _ => true

end Git

/-- The dirty-worktree gate of cmd/remove.go line 91: prompt only when not
forced and the status probe reports changes. -/
def rmDirtyGate (force : Bool) (statusResult : Except GitErr String) : Bool :=
  !force && Git.HasUncommittedChanges statusResult

/-- The three git-backed classifier bits as read through the raw predicates
(the directory bit of the full signature comes from os.Stat, not git). -/
def gitSignatureBits (listRaw : Except GitErr String) (statusRaw : Except GitErr String)
    (showRef : Except GitErr Unit) (path : String) : Bool × Bool × Bool :=
  (Git.WorktreeIsRegistered listRaw path, Git.BranchExists showRef,
   Git.HasUncommittedChanges statusRaw)

/- ---------------------------------------------------------------------------
Action template renderer and executor (internal/action/action.go, Execute).
Go's text/template machinery is embedded as a token list; a variable token
resolves against the fields of the template data struct built in Execute, and
an unresolvable field is a rendering error (text/template errors on a missing
struct field rather than substituting an empty string).
--------------------------------------------------------------------------- -/

/-- One token of an action template: literal text or a `\x7b\x7b.Var\x7d\x7d`
field reference. -/
inductive TmplToken
  | lit (s : String)
  | var (v : String)
deriving Repr, DecidableEq

/-- An action template, as tokenized by text/template. -/
abbrev Template := List TmplToken

/-- The anonymous data struct built in Execute (action.go lines 106-125):
seven flat fields plus the embedded WorktreeInfo. The embedded struct's
WorktreeName is shadowed by the outer field, per Go promotion rules. -/
structure TemplateData where
  worktreePath : String
  worktreeName : String
  actionField : String
  cliArgs : String
  osName : String
  archName : String
  rootDir : String
  tyName : String
  owner : String
  repo : String
  number : Nat
  branchName : String
deriving Repr, DecidableEq

/-- Field resolution of the data struct: exactly the exported field names of
the struct in Execute resolve; anything else is a missing field. -/
def TemplateData.lookup (d : TemplateData) (v : String) : Option String :=
  if v == "WorktreePath" then some d.worktreePath
  else if v == "WorktreeName" then some d.worktreeName
  else if v == "Action" then some d.actionField
  else if v == "CLI_ARGS" then some d.cliArgs
  else if v == "OS" then some d.osName
  else if v == "ARCH" then some d.archName
  else if v == "ROOT_DIR" then some d.rootDir
  else if v == "Type" then some d.tyName
  else if v == "Owner" then some d.owner
  else if v == "Repo" then some d.repo
  else if v == "Number" then some (toString d.number)
  else if v == "BranchName" then some d.branchName
  else none

/-- The fixed variable set available to dir and command templates (§6 of the
configuration interface plus the promoted WorktreeInfo fields). -/
def fixedVars : List String :=
  ["WorktreePath", "WorktreeName", "Action", "CLI_ARGS", "OS", "ARCH",
   "ROOT_DIR", "Type", "Owner", "Repo", "Number", "BranchName"]

/-- tmpl.Execute over the token list: a missing field aborts rendering with
the offending variable name; nothing is silently substituted. -/
def renderTemplate (d : TemplateData) : Template → Except String String
  | [] => .ok ""
  | .lit t :: rest =>
    match renderTemplate d rest with
    | .ok s => .ok (t ++ s)
    | .error e => .error e
  | .var v :: rest =>
    match d.lookup v with
    | some val =>
      match renderTemplate d rest with
      | .ok s => .ok (val ++ s)
      | .error e => .error e
    | none => .error v

/-- Variables referenced by a template. -/
def tmplVars : Template → List String
  | [] => []
  | .lit _ :: rest => tmplVars rest
  | .var v :: rest => v :: tmplVars rest

/-- One configured action (`config.Action`): name, optional dir template
(none embeds Go's `Dir == ""`), command templates in declared order. -/
structure ConfigAction where
  name : String
  dir : Option Template
  cmds : List Template
deriving Repr, DecidableEq

/-- Errors of Action.Execute, one constructor per fmt.Errorf site; each
constructor carries exactly the data interpolated into that format string. -/
inductive ActionError
  | notFound (name : String)
  | dirRenderFailed (v : String)
  | cmdRenderFailed (v : String)
  | commandFailed (cmdText : String) (code : Nat)
deriving Repr, DecidableEq

/-- Which action name an error value itself identifies. Only the not-found
error interpolates the action name; a command failure interpolates only the
rendered command text. -/
def ActionError.namesAction : ActionError → Option String
  | .notFound n => some n
  | _ => none

/-- Which failing command text an error value identifies. -/
def ActionError.namesCommand : ActionError → Option String
  | .commandFailed c _ => some c
  | _ => none

/-- The command loop of Execute (action.go lines 143-167): each template is
rendered then run; the first render error or non-zero exit stops the loop.
Returns the commands actually run (in order) and the outcome. The outcome of
a rendered command is the oracle `oc` (none = exit 0, some code = failure). -/
def executeCmds (d : TemplateData) (oc : String → Option Nat) :
    List Template → List String × Except ActionError Unit
  | [] => ([], .ok ())
  | t :: rest =>
    match renderTemplate d t with
    | .error v => ([], .error (.cmdRenderFailed v))
    | .ok c =>
      match oc c with
      | some code => ([c], .error (.commandFailed c code))
      | none =>
        let r := executeCmds d oc rest
        (c :: r.1, r.2)

namespace Action

/-- Action.Execute (action.go lines 43-171) after its option validation: look
the action up by name, render the working-directory template once (the
worktree path when absent), then run the command loop. The git-root lookup
that populates `rootDir` is presumed to have succeeded in building `d`. -/
def executeAction (cfg : List ConfigAction) (actionName : String) (d : TemplateData)
    (oc : String → Option Nat) : List String × Except ActionError Unit :=
  match cfg.find? (fun a => a.name == actionName) with
  | none => ([], .error (.notFound actionName))
  | some act =>
    let dirResult : Except ActionError String :=
      match act.dir with
      | none => .ok d.worktreePath
      | some t =>
        match renderTemplate d t with
        | .ok out => .ok out
        | .error v => .error (.dirRenderFailed v)
    match dirResult with
    | .error e => ([], .error e)
    | .ok _ => executeCmds d oc act.cmds

end Action

/-- The error wrapper of cmd/run.go line 101: a failed action is returned as
an error interpolating the action name around the executor's error. -/
inductive RunCmdError
  | actionFailed (name : String) (inner : ActionError)
deriving Repr, DecidableEq

/-- The action name carried by the run command's wrapped error. -/
def RunCmdError.namesAction : RunCmdError → Option String
  | .actionFailed n _ => some n

/-- Spec-side helper: render every template in a list (used only to phrase
hypotheses about runs whose templates all render). -/
def renderAll (d : TemplateData) : List Template → Except String (List String)
  | [] => .ok []
  | t :: ts =>
    match renderTemplate d t, renderAll d ts with
    | .ok c, .ok cs => .ok (c :: cs)
    | .error e, _ => .error e
    | .ok _, .error e => .error e

/- ---------------------------------------------------------------------------
Worktree creation at the CLI layer (cmd/create.go: createWorktree,
buildConflictMessage, performCleanup, executePostCreation).
--------------------------------------------------------------------------- -/

/-- worktree.WorktreeType. -/
inductive WtType
  | issue
  | pr
  | local
deriving Repr, DecidableEq

/-- worktree.WorktreeInfo (internal/worktree): the creation request.
`repoPath` is the backing repository path the gh-worktree Creator reads for
Local requests. -/
structure WorktreeInfo where
  ty : WtType
  owner : String
  repo : String
  number : Nat
  branchName : String
  worktreeName : String
  repoPath : String
deriving Repr, DecidableEq

/-- The target worktree path computed in createWorktree:
`filepath.Join(baseDir, info.Repo, info.WorktreeName)`. -/
def wtPath (baseDir : String) (info : WorktreeInfo) : String :=
  joinPath (joinPath baseDir info.repo) info.worktreeName

/-- One line of the confirmation message built by buildConflictMessage, one
constructor per write into the strings.Builder, carrying exactly the values
interpolated there. The dirty-branch warning interpolates only the branch
name. -/
inductive MsgEntry
  | header (branch : String)
  | removeWorktreeOnBranch (path branch : String)
  | removeWorktree (path : String)
  | removeStaleRecord (path : String)
  | removeDirectory (path : String)
  | deleteBranch (branch : String)
  | createFor (branch : String)
  | warnDirtyWorktree (path : String)
  | warnDirtyBranch (branch : String)
  | overwriteQuestion
deriving Repr, DecidableEq

/-- The path a message entry interpolates, if any. -/
def MsgEntry.mentionsPath : MsgEntry → Option String
  | .removeWorktreeOnBranch p _ => some p
  | .removeWorktree p => some p
  | .removeStaleRecord p => some p
  | .removeDirectory p => some p
  | .warnDirtyWorktree p => some p
  | _ => none

/-- buildConflictMessage (create.go): the "This will:" plan shown before the
overwrite prompt. `absPath` is the display form of `worktreePath`. The
dirty-branch scan walks the worktree records for the first one on the target
branch and probes that record's own path for uncommitted changes. -/
def buildConflictMessage (s : GitState) (info : WorktreeInfo) (absPath worktreePath : String)
    (dirB gitB branchB : Bool) : List MsgEntry :=
  let currentBranch := if gitB then s.getWorktreeBranch worktreePath else ""
  [MsgEntry.header info.branchName]
  ++ (if dirB && gitB then
        if currentBranch != "" then [MsgEntry.removeWorktreeOnBranch absPath currentBranch]
        else [MsgEntry.removeWorktree absPath]
      else if gitB then [MsgEntry.removeStaleRecord absPath]
      else if dirB then [MsgEntry.removeDirectory absPath]
      else [])
  ++ (if branchB then [MsgEntry.deleteBranch info.branchName] else [])
  ++ [MsgEntry.createFor info.branchName]
  ++ (if dirB && s.isGitRepository worktreePath && s.hasUncommittedChanges worktreePath then
        [MsgEntry.warnDirtyWorktree absPath]
      else [])
  ++ (if branchB then
        match s.worktrees.find? (fun r => r.branch == info.branchName) with
        | some wt => if s.hasUncommittedChanges wt.path then
                       [MsgEntry.warnDirtyBranch info.branchName]
                     else []
        | none => []
      else [])
  ++ [MsgEntry.overwriteQuestion]

/-- Errors of createWorktree's cleanup and creation phases, one constructor
per fmt.Errorf site. -/
inductive CreateErr
  | removeWorktreeFailed
  | removeDirectoryFailed
  | pruneFailed
  | branchDeleteFailed
  | createFailed
deriving Repr, DecidableEq

/-- The post-creation work requested of createWorktree (flags and `--` args),
with its outcome: an action run (none = success), or a direct command run. -/
inductive PostSpec
  | noAction
  | withAction (name : String) (outcome : Option ActionError)
  | withCliArgs (cmd : String) (failed : Bool)
deriving Repr, DecidableEq

/-- Warnings logged by createWorktree (Log.Warnf sites). -/
inductive Warning
  | cancelledNoChangesMade
  | actionFailed (name : String) (e : ActionError)
  | commandFailed (cmd : String)
deriving Repr, DecidableEq

/-- Oracle for one createWorktree run: the operator's prompt answer and the
success of each external operation. `createLeftDir` says whether a failed
worktree-add left the target directory behind (the rollback in create.go
exists for exactly that case). -/
structure CreateOracle where
  promptYes : Bool
  worktreeRemoveOk : Bool
  removeDirOk : Bool
  pruneOk : Bool
  branchDeleteOk : Bool
  createOk : Bool
  createLeftDir : Bool
  rollbackRemoveOk : Bool
  post : PostSpec
deriving Repr

/-- Overall outcome of the add command: RunE returned nil with or without the
cancellation message, or returned an error. -/
inductive CmdResult
  | ok
  | cancelledNoChanges
  | err (e : CreateErr)
deriving Repr, DecidableEq

/-- performCleanup (create.go): remove the conflicting worktree / directory /
stale record according to the signature bits, then delete the existing
branch. On failure the error site and the state reached so far are returned. -/
def performCleanup (s : GitState) (worktreePath : String) (dirB gitB branchB : Bool)
    (branchName : String) (o : CreateOracle) : Except (CreateErr × GitState) GitState :=
  let step1 : Except (CreateErr × GitState) GitState :=
    if dirB && gitB then
      if o.worktreeRemoveOk then .ok (s.gitWorktreeRemove worktreePath)
      else .error (.removeWorktreeFailed, s)
    else if dirB then
      if o.removeDirOk then .ok (s.removeAllDir worktreePath)
      else .error (.removeDirectoryFailed, s)
    else if gitB then
      if o.pruneOk then .ok s.gitWorktreePrune
      else .error (.pruneFailed, s)
    else .ok s
  match step1 with
  | .error e => .error e
  | .ok s1 =>
    if branchB then
      if o.branchDeleteOk then .ok (s1.gitBranchDelete branchName)
      else .error (.branchDeleteFailed, s1)
    else .ok s1

/-- Modelled from the spec: `worktree.Create(worktreePath, branchName,
startPoint)` of gh-wt's internal/worktree package is not under src (only its
callers are). Per §4.3 step 6 it creates the worktree and its branch from the
start point through the git capability interface as one blocking fallible
operation: on success the directory exists, is registered, and the branch
exists; on failure no registration and no branch are created, though the
target directory may be left behind (the caller's rollback removes it). -/
def worktreeCreate (s : GitState) (worktreePath branchName : String) (o : CreateOracle) :
    Except GitState GitState :=
  if o.createOk then .ok (s.gitWorktreeAddNewBranch branchName worktreePath)
  else .error (if o.createLeftDir then s.addDir worktreePath else s)

/-- executePostCreation (create.go): run the requested action or direct
command; any failure is logged as a warning and the function returns nil. -/
def executePostCreation (ps : PostSpec) : List Warning × CmdResult :=
  match ps with
  | .noAction => ([], .ok)
  | .withAction n (some e) => ([.actionFailed n e], .ok)
  | .withAction _ none => ([], .ok)
  | .withCliArgs c true => ([.commandFailed c], .ok)
  | .withCliArgs _ false => ([], .ok)

/-- Everything one createWorktree run produces: final world state, RunE
outcome, logged warnings, and the message handed to the prompt (none when no
conflict existed or --force skipped the prompt). -/
structure CreateOut where
  state : GitState
  result : CmdResult
  warnings : List Warning
  prompted : Option (List MsgEntry)
deriving Repr

namespace Cmd

/-- The creation step of createWorktree with its rollback: on failure, if the
target directory exists it is removed best-effort (the removal's own error is
discarded) and the original creation error is returned. -/
def creationStage (s1 : GitState) (worktreePath branchName : String) (o : CreateOracle)
    (pm : Option (List MsgEntry)) : CreateOut :=
  match worktreeCreate s1 worktreePath branchName o with
  | .ok s2 =>
    let post := executePostCreation o.post
    ⟨s2, post.2, post.1, pm⟩
  | .error s2 =>
    let s3 := if s2.dirExists worktreePath then
                (if o.rollbackRemoveOk then s2.removeAllDir worktreePath else s2)
              else s2
    ⟨s3, .err .createFailed, [], pm⟩

/-- Continuation after the prompt: run the cleanup, then the creation stage. -/
def afterConfirm (s : GitState) (worktreePath branchName : String)
    (dirB gitB branchB : Bool) (o : CreateOracle) (pm : Option (List MsgEntry)) : CreateOut :=
  match performCleanup s worktreePath dirB gitB branchB branchName o with
  | .error (e, s1) => ⟨s1, .err e, [], pm⟩
  | .ok s1 => creationStage s1 worktreePath branchName o pm

/-- createWorktree (cmd/create.go): classify the target, and when a conflict
exists either prompt (declining returns nil after the "Cancelled - no changes
made" warning) or, under --force, proceed straight to cleanup; then create
the worktree and run the post-creation work. -/
def createWorktree (s : GitState) (info : WorktreeInfo) (baseDir : String)
    (force : Bool) (o : CreateOracle) : CreateOut :=
  let worktreePath := wtPath baseDir info
  let branchB := s.branchExists info.branchName
  let dirB := s.dirExists worktreePath
  let gitB := s.worktreeIsRegistered worktreePath
  let hasConflict := dirB || gitB || branchB
  if hasConflict then
    if !force then
      let msg := buildConflictMessage s info worktreePath worktreePath dirB gitB branchB
      if o.promptYes then
        afterConfirm s worktreePath info.branchName dirB gitB branchB o (some msg)
      else ⟨s, .cancelledNoChanges, [.cancelledNoChangesMade], some msg⟩
    else afterConfirm s worktreePath info.branchName dirB gitB branchB o none
  else creationStage s worktreePath info.branchName o none

end Cmd

/- ---------------------------------------------------------------------------
Transactional Creator (internal/worktree/worktree.go: Creator.setupWorktree,
Creator.Cleanup) and the crash-point trace of its creation section.
--------------------------------------------------------------------------- -/

/-- worktree.BranchAction: the decision returned by the branch-check callback. -/
inductive BranchAction
  | overwrite
  | attach
  | cancel
deriving Repr, DecidableEq

/-- One attempted git/filesystem operation, recorded in order of invocation. -/
inductive GitOp
  | mkdirAll (p : String)
  | cloneBare (owner repo : String)
  | configRemote (p : String)
  | worktreeRemove (p : String)
  | fetch (ref : String)
  | worktreeAdd (b p : String)
  | worktreeAddFromRef (b p ref : String)
  | worktreeAddFromBranch (b p : String)
  | branchDelete (b : String)
  | removeAllDir (p : String)
deriving Repr, DecidableEq

/-- Errors of setupWorktree, one per fmt.Errorf site plus ErrCancelled. -/
inductive SetupErr
  | mkdirFailed
  | cloneFailed
  | configRemoteFailed
  | alreadyExists
  | staleRemoveFailed
  | cancelled
  | fetchFailed
  | attachFailed
  | addFailed
deriving Repr, DecidableEq

/-- Success bits for the external operations setupWorktree performs. -/
structure SetupOracle where
  mkdirOk : Bool
  cloneOk : Bool
  configRemoteOk : Bool
  staleRemoveOk : Bool
  fetchOk : Bool
  addOk : Bool
deriving Repr

/-- Everything one setupWorktree run produces: final state, the Creator's
created-directories and created-branches records, the ordered operations
attempted, and the outcome. -/
structure SetupOut where
  state : GitState
  createdDirs : List String
  createdBranches : List String
  ops : List GitOp
  result : Except SetupErr Unit
deriving Repr

/-- worktree.BareDir. -/
def bareDirName : String := ".bare"

namespace Worktree

/-- The backing repository path: `info.RepoPath` for Local, the `.bare`
directory under the repo's worktree base otherwise (worktree.go lines 87-91). -/
def repoPathOf (info : WorktreeInfo) (baseDir : String) : String :=
  if info.ty == WtType.local then info.repoPath
  else joinPath (joinPath baseDir info.repo) bareDirName

/-- The branch name setupWorktree derives (worktree.go lines 117-129). -/
def setupBranchName (info : WorktreeInfo) : String :=
  match info.ty with
  | .issue => "issue_" ++ toString info.number
  | .pr => if info.branchName == "" then "pr_" ++ toString info.number else info.branchName
  | .local => info.branchName

/-- The PR head ref fetched before creating or attaching a PR worktree. -/
def prRefOf (info : WorktreeInfo) : String :=
  "refs/pull/" ++ toString info.number ++ "/head"

/-- setupWorktree step 1 (worktree.go lines 83-85): os.MkdirAll on the
worktree base directory. -/
def preludeMkdir (s : GitState) (worktreeBase : String) (o : SetupOracle) :
    Except (SetupErr × GitState × List GitOp) (GitState × List GitOp) :=
  if o.mkdirOk then .ok (s.addDir worktreeBase, [.mkdirAll worktreeBase])
  else .error (.mkdirFailed, s, [.mkdirAll worktreeBase])

/-- setupWorktree step 2 (worktree.go lines 87-102): for non-Local requests
whose bare repository is missing, clone it and configure its remote. -/
def preludeClone (info : WorktreeInfo) (repoPath : String) (o : SetupOracle)
    (acc : GitState × List GitOp) :
    Except (SetupErr × GitState × List GitOp) (GitState × List GitOp) :=
  if info.ty != WtType.local && !(acc.1.dirExists repoPath) then
    if o.cloneOk then
      if o.configRemoteOk then
        .ok (acc.1.addDir repoPath,
          acc.2 ++ [.cloneBare info.owner info.repo, .configRemote repoPath])
      else
        .error (.configRemoteFailed, acc.1.addDir repoPath,
          acc.2 ++ [.cloneBare info.owner info.repo, .configRemote repoPath])
    else .error (.cloneFailed, acc.1, acc.2 ++ [.cloneBare info.owner info.repo])
  else .ok acc

/-- setupWorktree steps 3-4 (worktree.go lines 104-115): reject a target
directory that already exists on disk, and force-remove a stale git
registration of the target path. -/
def preludeStale (worktreePath : String) (o : SetupOracle) (acc : GitState × List GitOp) :
    Except (SetupErr × GitState × List GitOp) (GitState × List GitOp) :=
  if acc.1.dirExists worktreePath then .error (.alreadyExists, acc.1, acc.2)
  else if acc.1.worktreeIsRegistered worktreePath then
    if o.staleRemoveOk then
      .ok (acc.1.gitWorktreeRemove worktreePath, acc.2 ++ [.worktreeRemove worktreePath])
    else .error (.staleRemoveFailed, acc.1, acc.2 ++ [.worktreeRemove worktreePath])
  else .ok acc

/-- setupWorktree's steps before the branch decision (worktree.go lines
79-115), composed. Errors carry the state and operations reached so far. -/
def setupPrelude (s : GitState) (info : WorktreeInfo) (baseDir : String) (o : SetupOracle) :
    Except (SetupErr × GitState × List GitOp) (GitState × List GitOp) :=
  match preludeMkdir s (joinPath baseDir info.repo) o with
  | .error e => .error e
  | .ok acc1 =>
    match preludeClone info (repoPathOf info baseDir) o acc1 with
    | .error e => .error e
    | .ok acc2 => preludeStale (wtPath baseDir info) o acc2

/-- The attach arm of the branch-decision switch (worktree.go lines 137-161):
no recording into the transaction, a PR worktree fetches its head ref first,
then the worktree is added from the existing branch. -/
def attachStage (s1 : GitState) (info : WorktreeInfo) (bn worktreePath : String)
    (ops0 : List GitOp) (o : SetupOracle) : SetupOut :=
  match info.ty with
  | .pr =>
    if !o.fetchOk then ⟨s1, [], [], ops0 ++ [.fetch (prRefOf info)], .error .fetchFailed⟩
    else
      let ops := ops0 ++ [.fetch (prRefOf info), .worktreeAddFromBranch bn worktreePath]
      if o.addOk then ⟨s1.gitWorktreeAddFromBranch bn worktreePath, [], [], ops, .ok ()⟩
      else ⟨s1, [], [], ops, .error .attachFailed⟩
  | _ =>
    let ops := ops0 ++ [.worktreeAddFromBranch bn worktreePath]
    if o.addOk then ⟨s1.gitWorktreeAddFromBranch bn worktreePath, [], [], ops, .ok ()⟩
    else ⟨s1, [], [], ops, .error .attachFailed⟩

/-- The creation section (worktree.go lines 166-189): the target path is
appended to createdDirs before the worktree-add is invoked; the branch is
appended to createdBranches only after the add returned successfully. -/
def creationSection (s1 : GitState) (info : WorktreeInfo) (bn worktreePath : String)
    (ops0 : List GitOp) (o : SetupOracle) : SetupOut :=
  let cds := [worktreePath]
  match info.ty with
  | .pr =>
    if !o.fetchOk then ⟨s1, cds, [], ops0 ++ [.fetch (prRefOf info)], .error .fetchFailed⟩
    else
      let ops := ops0 ++ [.fetch (prRefOf info), .worktreeAddFromRef bn worktreePath "FETCH_HEAD"]
      if o.addOk then ⟨s1.gitWorktreeAddNewBranch bn worktreePath, cds, [bn], ops, .ok ()⟩
      else ⟨s1, cds, [], ops, .error .addFailed⟩
  | _ =>
    let ops := ops0 ++ [.worktreeAdd bn worktreePath]
    if o.addOk then ⟨s1.gitWorktreeAddNewBranch bn worktreePath, cds, [bn], ops, .ok ()⟩
    else ⟨s1, cds, [], ops, .error .addFailed⟩

/-- Creator.setupWorktree (worktree.go lines 79-199): prelude, branch-check
callback (cancel / attach / overwrite), then the recording creation section. -/
def setupWorktree (s : GitState) (info : WorktreeInfo) (baseDir : String)
    (branchCheck : Option (String → BranchAction)) (o : SetupOracle) : SetupOut :=
  let worktreePath := wtPath baseDir info
  let bn := setupBranchName info
  match setupPrelude s info baseDir o with
  | .error (e, s1, ops) => ⟨s1, [], [], ops, .error e⟩
  | .ok (s1, ops0) =>
    match branchCheck with
    | some check =>
      match check bn with
      | .cancel => ⟨s1, [], [], ops0, .error .cancelled⟩
      | .attach => attachStage s1 info bn worktreePath ops0 o
      | .overwrite => creationSection s1 info bn worktreePath ops0 o
    | none => creationSection s1 info bn worktreePath ops0 o

end Worktree

/-- One rollback failure collected by Creator.Cleanup, one constructor per
fmt.Errorf site in worktree.go lines 57-77. -/
inductive CleanupFailure
  | removeDirectory (dir : String)
  | deleteBranch (branch : String)
deriving Repr, DecidableEq

/-- Per-resource success bits for the rollback operations. -/
structure CleanupOracle where
  removeDirOk : String → Bool
  branchDeleteOk : String → Bool

/-- Creator.Cleanup: best-effort removal of every recorded directory then
force-deletion of every recorded branch; individual failures are collected
and joined into the returned aggregate (empty list = nil error). -/
def creatorCleanup (s : GitState) (createdDirs createdBranches : List String)
    (o : CleanupOracle) : GitState × List CleanupFailure :=
  let afterDirs := createdDirs.foldl
    (fun (acc : GitState × List CleanupFailure) d =>
      if o.removeDirOk d then (acc.1.removeAllDir d, acc.2)
      else (acc.1, acc.2 ++ [.removeDirectory d]))
    (s, [])
  createdBranches.foldl
    (fun (acc : GitState × List CleanupFailure) b =>
      if o.branchDeleteOk b then (acc.1.gitBranchDelete b, acc.2)
      else (acc.1, acc.2 ++ [.deleteBranch b]))
    afterDirs

/-- One step of the creation section viewed as a crash-point trace: either a
record appended to the transaction or an external operation that brings a
resource into existence (worktree.go lines 166-189, success path). -/
inductive TxEvent
  | recordDir (p : String)
  | gitFetch (ref : String)
  | gitWorktreeAddNew (b p : String)
  | recordBranch (b : String)
deriving Repr, DecidableEq

/-- The ordered events of the creation section for each request type: record
the directory, (for PR) fetch, run the branch-creating worktree-add, record
the branch. -/
def creationEvents (ty : WtType) (ref b p : String) : List TxEvent :=
  match ty with
  | .pr => [.recordDir p, .gitFetch ref, .gitWorktreeAddNew b p, .recordBranch b]
  | _ => [.recordDir p, .gitWorktreeAddNew b p, .recordBranch b]

/-- Directories brought into existence by the executed prefix of a trace. -/
def txDirsCreated : List TxEvent → List String
  | [] => []
  | .gitWorktreeAddNew _ p :: es => p :: txDirsCreated es
  | _ :: es => txDirsCreated es

/-- Branches brought into existence by the executed prefix of a trace. -/
def txBranchesCreated : List TxEvent → List String
  | [] => []
  | .gitWorktreeAddNew b _ :: es => b :: txBranchesCreated es
  | _ :: es => txBranchesCreated es

/-- Directories recorded in the transaction by the executed prefix. -/
def txDirsRecorded : List TxEvent → List String
  | [] => []
  | .recordDir p :: es => p :: txDirsRecorded es
  | _ :: es => txDirsRecorded es

/-- Branches recorded in the transaction by the executed prefix. -/
def txBranchesRecorded : List TxEvent → List String
  | [] => []
  | .recordBranch b :: es => b :: txBranchesRecorded es
  | _ :: es => txBranchesRecorded es

/- ---------------------------------------------------------------------------
Removal (cmd/remove.go: runRemove, findWorktree; worktree.go: Remove).
--------------------------------------------------------------------------- -/

/-- Errors of the removal flow, one per return-with-error site. -/
inductive RemoveErr
  | dirtyWorktree
  | removeFailed
  | branchDeleteFailed
  | gitDirFailed
  | branchNameFailed
deriving Repr, DecidableEq

/-- Success bits for the external operations of one removal run. -/
structure RemoveOracle where
  listOk : Bool
  worktreeRemoveOk : Bool
  removeAllOk : Bool
  branchDeleteOk : Bool
  currentBranchOk : Bool
  commonDirOk : Bool
  promptYes : Bool
deriving Repr

/-- Modelled from the spec: `git.ListWorktrees` (the `worktreeList` capability
of §6) is not under src (only its callers in worktree.go are); it returns the
registered worktree paths, or fails. -/
def listWorktrees (s : GitState) (o : RemoveOracle) : Except Unit (List String) :=
  if o.listOk then .ok (s.worktrees.map (fun r => r.path)) else .error ()

namespace Worktree

/-- The exact-registered-path resolution of worktree.Remove (worktree.go
lines 208-218): the first listed path with the caller's path as suffix or
equal, empty string when the listing fails or nothing matches. -/
def resolveExact (s : GitState) (o : RemoveOracle) (worktreePath : String) : String :=
  match listWorktrees s o with
  | .ok wts =>
    match wts.find? (fun wt => wt.endsWith worktreePath || wt == worktreePath) with
    | some wt => wt
    | none => ""
  | .error _ => ""

/-- The worktree-removal step of worktree.Remove (worktree.go lines 220-233):
git-remove the exact path when one was resolved, falling back to direct
recursive directory deletion when that fails; with no resolved path, delete
the directory directly. -/
def removeStep (s : GitState) (worktreePath exactPath : String) (o : RemoveOracle) :
    GitState × List GitOp × Option RemoveErr :=
  if exactPath != "" then
    if o.worktreeRemoveOk then (s.gitWorktreeRemove exactPath, [.worktreeRemove exactPath], none)
    else if o.removeAllOk then
      (s.removeAllDir worktreePath,
       [.worktreeRemove exactPath, .removeAllDir worktreePath], none)
    else (s, [.worktreeRemove exactPath, .removeAllDir worktreePath], some .removeFailed)
  else
    if o.removeAllOk then (s.removeAllDir worktreePath, [.removeAllDir worktreePath], none)
    else (s, [.removeAllDir worktreePath], some .removeFailed)

/-- worktree.Remove (worktree.go lines 202-241): refuse a dirty worktree
unless forced; resolve the exact registered path; run the removal step with
its fallback; finally force-delete the branch. -/
def Remove (s : GitState) (repoPath worktreePath branch : String) (force : Bool)
    (o : RemoveOracle) : GitState × List GitOp × Except RemoveErr Unit :=
  if !force && s.hasUncommittedChanges worktreePath then (s, [], .error .dirtyWorktree)
  else
    match removeStep s worktreePath (resolveExact s o worktreePath) o with
    | (s1, ops1, some e) => (s1, ops1, .error e)
    | (s1, ops1, none) =>
      if o.branchDeleteOk then (s1.gitBranchDelete branch, ops1 ++ [.branchDelete branch], .ok ())
      else (s1, ops1 ++ [.branchDelete branch], .error .branchDeleteFailed)

end Worktree

/-- How the remove command's argument was given: a GitHub URL (already parsed
to a PR/Issue request) or a plain worktree name. -/
inductive RemoveArg
  | url (info : WorktreeInfo)
  | name (n : String)
deriving Repr

/-- Outcome of one runRemove invocation: the not-found no-op success, a clean
user cancellation, a completed removal, or an error. -/
inductive RemoveOutcome
  | notFoundNoop
  | cancelled
  | removed
  | failed (e : RemoveErr)
deriving Repr, DecidableEq

namespace Cmd

/-- findWorktree (cmd/remove.go lines 114-132): scan the repo directories
under the base for the first that contains the named worktree. -/
def findWorktree (s : GitState) (baseDir : String) (entries : List String) (n : String) :
    Option (String × String) :=
  match entries.find? (fun r => s.dirExists (joinPath (joinPath baseDir r) n)) with
  | some r => some (r, joinPath (joinPath baseDir r) n)
  | none => none

/-- The tail of runRemove shared by both argument forms (remove.go lines
79-111): the os.Stat not-found no-op, the branch lookup, the dirty-worktree
prompt, and the call into worktree.Remove. -/
def removePhase (s : GitState) (worktreePath repoPath : String) (force : Bool)
    (o : RemoveOracle) : GitState × RemoveOutcome :=
  if !(s.dirExists worktreePath) then (s, .notFoundNoop)
  else if !o.currentBranchOk then (s, .failed .branchNameFailed)
  else
    let branch := s.getWorktreeBranch worktreePath
    let decision : Option Bool :=
      if !force && s.hasUncommittedChanges worktreePath then
        if o.promptYes then some true else none
      else some force
    match decision with
    | none => (s, .cancelled)
    | some f =>
      match Worktree.Remove s repoPath worktreePath branch f o with
      | (s1, _, .ok _) => (s1, .removed)
      | (s1, _, .error e) => (s1, .failed e)

/-- runRemove (cmd/remove.go lines 30-112): a URL argument resolves the path
from the parsed request (its backing repo is the `.bare` directory); a plain
name is searched with findWorktree, whose miss is the not-found no-op, and a
Local hit resolves its backing repo through the git common-dir lookup. -/
def runRemove (s : GitState) (baseDir : String) (entries : List String) (arg : RemoveArg)
    (force : Bool) (o : RemoveOracle) : GitState × RemoveOutcome :=
  match arg with
  | .url info =>
    let worktreePath := wtPath baseDir info
    let repoPath := joinPath (joinPath baseDir info.repo) bareDirName
    removePhase s worktreePath repoPath force o
  | .name n =>
    match findWorktree s baseDir entries n with
    | none => (s, .notFoundNoop)
    | some (r, worktreePath) =>
      if !o.commonDirOk then (s, .failed .gitDirFailed)
      else removePhase s worktreePath (joinPath baseDir r) force o

end Cmd

/- ---------------------------------------------------------------------------
Helper lemmas about the state operations.
--------------------------------------------------------------------------- -/

lemma contains_filter_ne (l : List String) (p : String) :
    (l.filter (fun x => x != p)).contains p = false := by
  induction l with
  | nil => rfl
  | cons a t ih =>
    by_cases h : a = p
    · subst h
      simpa using ih
    · simp only [List.filter_cons]
      have hne : (a != p) = true := by simp [h]
      simp only [hne, if_pos, List.contains_cons]
      have : (p == a) = false := by simp [Ne.symm h]
      simp [this, ih]

lemma any_path_filter (l : List WtRecord) (p : String) :
    ((l.filter (fun r => r.path != p)).any (fun r => r.path == p)) = false := by
  induction l with
  | nil => rfl
  | cons a t ih =>
    by_cases h : a.path = p
    · have : (a.path != p) = false := by simp [h]
      simp [List.filter_cons, this, ih]
    · have h1 : (a.path != p) = true := by simp [h]
      simp [List.filter_cons, h1, h, ih]

lemma any_path_prune (l : List WtRecord) (dirs : List String) (p : String)
    (h : dirs.contains p = false) :
    ((l.filter (fun r => dirs.contains r.path)).any (fun r => r.path == p)) = false := by
  induction l with
  | nil => rfl
  | cons a t ih =>
    simp only [List.filter_cons]
    by_cases hc : dirs.contains a.path = true
    · rw [if_pos hc]
      simp only [List.any_cons, ih, Bool.or_false]
      by_cases hp : a.path = p
      · rw [hp] at hc
        rw [hc] at h
        cases h
      · simp [hp]
    · rw [if_neg hc]
      exact ih

namespace GitState

@[simp] lemma removeAllDir_branches (s : GitState) (p : String) :
    (s.removeAllDir p).branches = s.branches := rfl

@[simp] lemma removeAllDir_worktrees (s : GitState) (p : String) :
    (s.removeAllDir p).worktrees = s.worktrees := rfl

@[simp] lemma gitWorktreeRemove_branches (s : GitState) (p : String) :
    (s.gitWorktreeRemove p).branches = s.branches := rfl

@[simp] lemma gitWorktreePrune_branches (s : GitState) :
    s.gitWorktreePrune.branches = s.branches := rfl

@[simp] lemma gitWorktreePrune_dirs (s : GitState) :
    s.gitWorktreePrune.dirs = s.dirs := rfl

@[simp] lemma gitBranchDelete_dirs (s : GitState) (b : String) :
    (s.gitBranchDelete b).dirs = s.dirs := rfl

@[simp] lemma gitBranchDelete_worktrees (s : GitState) (b : String) :
    (s.gitBranchDelete b).worktrees = s.worktrees := rfl

@[simp] lemma addDir_branches (s : GitState) (p : String) :
    (s.addDir p).branches = s.branches := by
  unfold addDir
  split <;> rfl

@[simp] lemma addDir_worktrees (s : GitState) (p : String) :
    (s.addDir p).worktrees = s.worktrees := by
  unfold addDir
  split <;> rfl

@[simp] lemma dirExists_removeAllDir_self (s : GitState) (p : String) :
    (s.removeAllDir p).dirExists p = false := by
  unfold dirExists removeAllDir
  exact contains_filter_ne s.dirs p

@[simp] lemma dirExists_gitWorktreeRemove_self (s : GitState) (p : String) :
    (s.gitWorktreeRemove p).dirExists p = false := by
  unfold dirExists gitWorktreeRemove removeAllDir
  exact contains_filter_ne s.dirs p

@[simp] lemma registered_gitWorktreeRemove_self (s : GitState) (p : String) :
    (s.gitWorktreeRemove p).worktreeIsRegistered p = false := by
  unfold worktreeIsRegistered gitWorktreeRemove
  exact any_path_filter s.worktrees p

@[simp] lemma branchExists_gitBranchDelete_self (s : GitState) (b : String) :
    (s.gitBranchDelete b).branchExists b = false := by
  unfold branchExists gitBranchDelete
  exact contains_filter_ne s.branches b

lemma registered_prune (s : GitState) (p : String) (h : s.dirExists p = false) :
    s.gitWorktreePrune.worktreeIsRegistered p = false := by
  unfold worktreeIsRegistered gitWorktreePrune
  exact any_path_prune s.worktrees s.dirs p h

@[simp] lemma dirExists_addDir_self (s : GitState) (p : String) :
    (s.addDir p).dirExists p = true := by
  unfold addDir dirExists
  split
  · assumption
  · simp

lemma registered_addDir (s : GitState) (p q : String) :
    (s.addDir p).worktreeIsRegistered q = s.worktreeIsRegistered q := by
  unfold worktreeIsRegistered
  rw [addDir_worktrees]

lemma branchExists_addDir (s : GitState) (p b : String) :
    (s.addDir p).branchExists b = s.branchExists b := by
  unfold branchExists
  rw [addDir_branches]

lemma branchExists_removeAllDir (s : GitState) (p b : String) :
    (s.removeAllDir p).branchExists b = s.branchExists b := rfl

lemma branchExists_gitWorktreeRemove (s : GitState) (p b : String) :
    (s.gitWorktreeRemove p).branchExists b = s.branchExists b := rfl

lemma branchExists_prune (s : GitState) (b : String) :
    s.gitWorktreePrune.branchExists b = s.branchExists b := rfl

lemma registered_removeAllDir (s : GitState) (p q : String) :
    (s.removeAllDir p).worktreeIsRegistered q = s.worktreeIsRegistered q := rfl

lemma registered_gitBranchDelete (s : GitState) (b q : String) :
    (s.gitBranchDelete b).worktreeIsRegistered q = s.worktreeIsRegistered q := rfl

lemma dirExists_gitBranchDelete (s : GitState) (b q : String) :
    (s.gitBranchDelete b).dirExists q = s.dirExists q := rfl

lemma dirExists_prune (s : GitState) (q : String) :
    s.gitWorktreePrune.dirExists q = s.dirExists q := rfl

@[simp] lemma dirExists_addNewBranch_self (s : GitState) (b p : String) :
    (s.gitWorktreeAddNewBranch b p).dirExists p = true := by
  unfold gitWorktreeAddNewBranch dirExists
  simp

@[simp] lemma registered_addNewBranch_self (s : GitState) (b p : String) :
    (s.gitWorktreeAddNewBranch b p).worktreeIsRegistered p = true := by
  unfold gitWorktreeAddNewBranch worktreeIsRegistered
  simp

@[simp] lemma branches_addFromBranch (s : GitState) (b p : String) :
    (s.gitWorktreeAddFromBranch b p).branches = s.branches := rfl

end GitState

/- ---------------------------------------------------------------------------
C10: git predicates never propagate a failure.
--------------------------------------------------------------------------- -/

/-- C10: the read-only git predicates used for conflict classification and
destructive-action gating — HasUncommittedChanges, WorktreeIsRegistered,
BranchExists — return false whenever their underlying git invocation fails,
for any failure; none propagates an error, so with git failing the classifier
reads all-false git bits and the dirty-worktree gate of the remove command
treats the worktree as clean (no prompt). -/
theorem c10_predicates_false_on_git_failure :
    ∀ (eS eL eB : GitErr) (path : String) (force : Bool),
      Git.HasUncommittedChanges (.error eS) = false ∧
      Git.WorktreeIsRegistered (.error eL) path = false ∧
      Git.BranchExists (.error eB) = false ∧
      gitSignatureBits (.error eL) (.error eS) (.error eB) path = (false, false, false) ∧
      rmDirtyGate force (.error eS) = false := by
  intro eS eL eB path force
  refine ⟨rfl, rfl, rfl, ?_, ?_⟩
  · rfl
  · unfold rmDirtyGate Git.HasUncommittedChanges
    simp

/- ---------------------------------------------------------------------------
C7: template rendering round-trip.
--------------------------------------------------------------------------- -/

lemma lookup_mem (d : TemplateData) (v : String) (hv : v ∈ fixedVars) :
    (d.lookup v).isSome = true := by
  fin_cases hv <;> rfl

lemma lookup_eq_none (d : TemplateData) (v : String) (hv : v ∉ fixedVars) :
    d.lookup v = none := by
  have hne : ∀ x, x ∈ fixedVars → (v == x) = false := by
    intro x hx
    rw [beq_eq_false_iff_ne]
    intro h
    exact hv (h ▸ hx)
  unfold TemplateData.lookup
  rw [hne "WorktreePath" (by decide), hne "WorktreeName" (by decide),
    hne "Action" (by decide), hne "CLI_ARGS" (by decide), hne "OS" (by decide),
    hne "ARCH" (by decide), hne "ROOT_DIR" (by decide), hne "Type" (by decide),
    hne "Owner" (by decide), hne "Repo" (by decide), hne "Number" (by decide),
    hne "BranchName" (by decide)]
  simp

/-- C7: for every template referencing only the fixed variable set, rendering
with a fully-populated context succeeds; for every template referencing a
variable outside that set, rendering returns an error naming a variable
rather than substituting an empty string. -/
theorem c7_template_round_trip :
    ∀ (d : TemplateData) (t : Template),
      ((∀ v ∈ tmplVars t, v ∈ fixedVars) → ∃ out, renderTemplate d t = .ok out) ∧
      ((∃ v ∈ tmplVars t, v ∉ fixedVars) → ∃ e, renderTemplate d t = .error e) := by
  intro d t
  induction t with
  | nil =>
    constructor
    · intro _
      exact ⟨"", rfl⟩
    · rintro ⟨v, hv, -⟩
      simp [tmplVars] at hv
  | cons tok rest ih =>
    cases tok with
    | lit s =>
      constructor
      · intro h
        have hrest : ∀ v ∈ tmplVars rest, v ∈ fixedVars := by
          intro v hv
          exact h v (by simp [tmplVars, hv])
        obtain ⟨out, hout⟩ := ih.1 hrest
        exact ⟨s ++ out, by simp [renderTemplate, hout]⟩
      · rintro ⟨v, hv, hnot⟩
        have : v ∈ tmplVars rest := by simpa [tmplVars] using hv
        obtain ⟨e, he⟩ := ih.2 ⟨v, this, hnot⟩
        exact ⟨e, by simp [renderTemplate, he]⟩
    | var w =>
      constructor
      · intro h
        have hw : w ∈ fixedVars := h w (by simp [tmplVars])
        have hsome : (d.lookup w).isSome = true := lookup_mem d w hw
        obtain ⟨val, hval⟩ := Option.isSome_iff_exists.mp hsome
        have hrest : ∀ v ∈ tmplVars rest, v ∈ fixedVars := by
          intro v hv
          exact h v (by simp [tmplVars, hv])
        obtain ⟨out, hout⟩ := ih.1 hrest
        exact ⟨val ++ out, by simp [renderTemplate, hval, hout]⟩
      · rintro ⟨v, hv, hnot⟩
        rcases List.mem_cons.mp (by simpa [tmplVars] using hv) with hvw | hvrest
        · subst hvw
          exact ⟨v, by simp [renderTemplate, lookup_eq_none d v hnot]⟩
        · obtain ⟨e, he⟩ := ih.2 ⟨v, hvrest, hnot⟩
          rcases hl : d.lookup w with _ | val
          · exact ⟨w, by simp [renderTemplate, hl]⟩
          · exact ⟨e, by simp [renderTemplate, hl, he]⟩

/-- A fully populated template context, used by the closed witnesses. -/
def sampleData : TemplateData :=
  ⟨"wts/repo/pr_123", "pr_123", "deploy", "fix it", "linux", "amd64",
   "/home/u/repo", "pr", "octo", "repo", 123, "feature-x"⟩

/-- Witness for C7 at concrete templates: a template over the fixed variable
set renders, and a template referencing an unknown variable errors. -/
theorem c7_template_round_trip_witness :
    (∃ out, renderTemplate sampleData
      [.lit "tmux -s ", .var "WorktreeName", .var "Number"] = .ok out) ∧
    (∃ e, renderTemplate sampleData [.lit "tmux -s ", .var "Unknown"] = .error e) := by
  constructor
  · exact (c7_template_round_trip sampleData
      [.lit "tmux -s ", .var "WorktreeName", .var "Number"]).1 (by decide)
  · exact (c7_template_round_trip sampleData
      [.lit "tmux -s ", .var "Unknown"]).2 ⟨"Unknown", by decide, by decide⟩

/- ---------------------------------------------------------------------------
C6: sequential fail-fast action execution.
--------------------------------------------------------------------------- -/

/-- C6 counterexample: action `deploy` has two commands and the first exits
non-zero. The second command never runs and the executor's propagated error
carries the failing command text, but it does not identify the action name
`deploy` (no error constructed in Execute's command loop interpolates the
action name) — refuting the claim that the propagated error identifies both. -/
theorem c6_counterexample :
    Action.executeAction [⟨"deploy", none, [[.lit "step-one"], [.lit "step-two"]]⟩]
        "deploy" sampleData (fun c => if c == "step-one" then some 1 else none) =
      (["step-one"], .error (.commandFailed "step-one" 1)) ∧
    (ActionError.commandFailed "step-one" 1).namesCommand = some "step-one" ∧
    (∀ an : String, (ActionError.commandFailed "step-one" 1).namesAction ≠ some an) := by
  refine ⟨?_, rfl, ?_⟩
  · rfl
  · intro an h
    simp [ActionError.namesAction] at h

/-- C6 as amended: command execution is sequential in declared order and
fail-fast — when every template renders and the first failing command sits at
index i, exactly the commands through index i run (prior commands' effects
are retained, nothing is re-run or undone) and the propagated error
interpolates the failing command text; the action name is attached only by
the caller's wrapper (cmd/run.go). -/
theorem c6_sequential_fail_fast :
    ∀ (d : TemplateData) (oc : String → Option Nat) (ts : List Template)
      (cs : List String) (i : Nat) (ci : String) (code : Nat),
      renderAll d ts = .ok cs →
      cs.get? i = some ci →
      oc ci = some code →
      (∀ j, j < i → ∀ cj, cs.get? j = some cj → oc cj = none) →
      executeCmds d oc ts = (cs.take (i + 1), .error (.commandFailed ci code)) ∧
      (ActionError.commandFailed ci code).namesCommand = some ci ∧
      (ActionError.commandFailed ci code).namesAction = none ∧
      (∀ an, (RunCmdError.actionFailed an (.commandFailed ci code)).namesAction = some an) := by
  intro d oc ts
  induction ts with
  | nil =>
    intro cs i ci code hren hi _ _
    simp [renderAll] at hren
    subst hren
    simp at hi
  | cons t rest ih =>
    intro cs i ci code hren hi hfail hok
    refine ⟨?_, rfl, rfl, fun _ => rfl⟩
    unfold renderAll at hren
    rcases hrt : renderTemplate d t with e | c
    · rw [hrt] at hren
      cases hren
    · rw [hrt] at hren
      rcases hra : renderAll d rest with e2 | cs2
      · rw [hra] at hren
        cases hren
      · rw [hra] at hren
        cases hren
        cases i with
        | zero =>
          simp at hi
          subst hi
          simp [executeCmds, hrt, hfail, List.take]
        | succ i2 =>
          have h0 : oc c = none := hok 0 (Nat.succ_pos i2) c rfl
          have hi2 : cs2.get? i2 = some ci := hi
          have hok2 : ∀ j, j < i2 → ∀ cj, cs2.get? j = some cj → oc cj = none := by
            intro j hj cj hcj
            exact hok (j + 1) (Nat.succ_lt_succ hj) cj hcj
          have := (ih cs2 i2 ci code hra hi2 hfail hok2).1
          simp [executeCmds, hrt, h0, this, List.take]

/-- Witness for C6 as amended at a concrete action: two commands, the first
(index 0) failing. -/
theorem c6_sequential_fail_fast_witness :
    executeCmds sampleData (fun c => if c == "make a" then some 2 else none)
        [[.lit "make a"], [.lit "make b"]] =
      (["make a"], .error (.commandFailed "make a" 2)) := by
  have h := c6_sequential_fail_fast sampleData
    (fun c => if c == "make a" then some 2 else none)
    [[.lit "make a"], [.lit "make b"]] ["make a", "make b"] 0 "make a" 2
    (by rfl) (by rfl) (by rfl)
    (by
      intro j hj cj hcj
      cases hj)
  simpa using h.1

/- ---------------------------------------------------------------------------
C2: rollback recording versus resource creation (crash-point analysis).
--------------------------------------------------------------------------- -/

/-- C2 counterexample: in the Issue/Local creation section, stop (crash) right
after the branch-creating worktree-add returned and before the branch record
is appended. The branch exists but the transaction's created-branches list is
empty — the branch is not recorded before the creating operation returns,
refuting the claimed invariant for branches. -/
theorem c2_counterexample :
    ¬ (∀ x ∈ txBranchesCreated
          ((creationEvents .issue "refs/pull/7/head" "issue_7" "wts/r/issue_7").take 2),
        x ∈ txBranchesRecorded
          ((creationEvents .issue "refs/pull/7/head" "issue_7" "wts/r/issue_7").take 2)) := by
  intro h
  have := h "issue_7" (by decide)
  simp [creationEvents, txBranchesRecorded, List.take] at this

/-- C2 as amended: for every crash point of the creation section, every
directory brought into existence so far is already recorded (directories are
recorded strictly before the creating operation), and every recorded branch
was actually created — but a branch is recorded only after the creating
operation returns, so only at the completed trace do recorded and created
branches coincide; a crash between the add and the record can leave a created
branch unrecorded. -/
theorem c2_recording_invariant :
    ∀ (ty : WtType) (ref b p : String) (k : Nat),
      (∀ x ∈ txDirsCreated ((creationEvents ty ref b p).take k),
        x ∈ txDirsRecorded ((creationEvents ty ref b p).take k)) ∧
      (∀ x ∈ txBranchesRecorded ((creationEvents ty ref b p).take k),
        x ∈ txBranchesCreated ((creationEvents ty ref b p).take k)) ∧
      txBranchesRecorded (creationEvents ty ref b p) =
        txBranchesCreated (creationEvents ty ref b p) ∧
      txDirsRecorded (creationEvents ty ref b p) =
        txDirsCreated (creationEvents ty ref b p) := by
  intro ty ref b p k
  have hk : k = 0 ∨ k = 1 ∨ k = 2 ∨ k = 3 ∨ ∃ n, k = n + 4 :=
    match k with
    | 0 => Or.inl rfl
    | 1 => Or.inr (Or.inl rfl)
    | 2 => Or.inr (Or.inr (Or.inl rfl))
    | 3 => Or.inr (Or.inr (Or.inr (Or.inl rfl)))
    | n + 4 => Or.inr (Or.inr (Or.inr (Or.inr ⟨n, rfl⟩)))
  refine ⟨?_, ?_, ?_, ?_⟩
  · rcases hk with rfl | rfl | rfl | rfl | ⟨n, rfl⟩ <;> cases ty <;>
      simp [creationEvents, txDirsCreated, txDirsRecorded, List.take]
  · rcases hk with rfl | rfl | rfl | rfl | ⟨n, rfl⟩ <;> cases ty <;>
      simp [creationEvents, txBranchesCreated, txBranchesRecorded, List.take]
  · cases ty <;> simp [creationEvents, txBranchesCreated, txBranchesRecorded]
  · cases ty <;> simp [creationEvents, txDirsCreated, txDirsRecorded]

/-- Witness for C2 as amended at a concrete crash point: stopping right after
the worktree-add of an Issue trace, the created directory is already among
the recorded directories. -/
theorem c2_recording_invariant_witness :
    "wts/r/issue_7" ∈ txDirsRecorded
      ((creationEvents .issue "refs/pull/7/head" "issue_7" "wts/r/issue_7").take 2) := by
  have h := c2_recording_invariant .issue "refs/pull/7/head" "issue_7" "wts/r/issue_7" 2
  exact h.1 "wts/r/issue_7" (by decide)

/- ---------------------------------------------------------------------------
Lemmas about the createWorktree stages.
--------------------------------------------------------------------------- -/

lemma executePostCreation_result (ps : PostSpec) : (executePostCreation ps).2 = .ok := by
  cases ps with
  | noAction => rfl
  | withAction n oc => cases oc <;> rfl
  | withCliArgs c f => cases f <;> rfl

lemma executePostCreation_warn (n : String) (e : ActionError) :
    Warning.actionFailed n e ∈ (executePostCreation (.withAction n (some e))).1 := by
  simp [executePostCreation]

namespace Cmd

lemma creationStage_prompted (s1 : GitState) (p bn : String) (o : CreateOracle)
    (pm : Option (List MsgEntry)) : (creationStage s1 p bn o pm).prompted = pm := by
  unfold creationStage worktreeCreate
  by_cases h : o.createOk <;> simp [h]

lemma afterConfirm_prompted (s : GitState) (p bn : String) (d g b : Bool)
    (o : CreateOracle) (pm : Option (List MsgEntry)) :
    (afterConfirm s p bn d g b o pm).prompted = pm := by
  unfold afterConfirm
  rcases h : performCleanup s p d g b bn o with ⟨e, s1⟩ | s1
  · simp [h]
  · simp [h, creationStage_prompted]

lemma creationStage_ok (s1 : GitState) (p bn : String) (o : CreateOracle)
    (pm : Option (List MsgEntry)) (hc : o.createOk = true) :
    creationStage s1 p bn o pm =
      ⟨s1.gitWorktreeAddNewBranch bn p, (executePostCreation o.post).2,
       (executePostCreation o.post).1, pm⟩ := by
  unfold creationStage worktreeCreate
  simp [hc]

lemma creationStage_fail (s1 : GitState) (p bn : String) (o : CreateOracle)
    (pm : Option (List MsgEntry)) (hc : o.createOk = false)
    (hr : o.createLeftDir = true → o.rollbackRemoveOk = true)
    (hdir : s1.dirExists p = false) (hreg : s1.worktreeIsRegistered p = false)
    (hbr : s1.branchExists bn = false) :
    (creationStage s1 p bn o pm).result = .err .createFailed ∧
    (creationStage s1 p bn o pm).state.dirExists p = false ∧
    (creationStage s1 p bn o pm).state.worktreeIsRegistered p = false ∧
    (creationStage s1 p bn o pm).state.branchExists bn = false := by
  unfold creationStage worktreeCreate
  cases hl : o.createLeftDir with
  | false =>
    simp only [hc, hl, Bool.false_eq_true, if_false, if_neg]
    simp [hdir, hreg, hbr]
  | true =>
    have hrb := hr hl
    simp only [hc, hl, Bool.false_eq_true, if_false, if_neg]
    simp [GitState.dirExists_addDir_self, hrb, GitState.registered_addDir,
      GitState.branchExists_addDir, hreg, hbr,
      GitState.registered_removeAllDir, GitState.branchExists_removeAllDir]

lemma creationStage_result_fail (s1 : GitState) (p bn : String) (o : CreateOracle)
    (pm : Option (List MsgEntry)) (hc : o.createOk = false) :
    (creationStage s1 p bn o pm).result = .err .createFailed := by
  unfold creationStage worktreeCreate
  simp [hc]

end Cmd

lemma performCleanup_ok_any (s : GitState) (p bn : String) (o : CreateOracle)
    (h1 : o.worktreeRemoveOk = true) (h2 : o.removeDirOk = true)
    (h3 : o.pruneOk = true) (h4 : o.branchDeleteOk = true) (d g b : Bool) :
    ∃ s1, performCleanup s p d g b bn o = .ok s1 := by
  cases d <;> cases g <;> cases b <;> simp [performCleanup, h1, h2, h3, h4]

lemma performCleanup_restores (s : GitState) (p bn : String) (o : CreateOracle)
    (h1 : o.worktreeRemoveOk = true) (h2 : o.removeDirOk = true)
    (h3 : o.pruneOk = true) (h4 : o.branchDeleteOk = true) :
    ∃ s1, performCleanup s p (s.dirExists p) (s.worktreeIsRegistered p)
        (s.branchExists bn) bn o = .ok s1 ∧
      s1.dirExists p = false ∧ s1.worktreeIsRegistered p = false ∧
      s1.branchExists bn = false := by
  cases hd : s.dirExists p <;> cases hg : s.worktreeIsRegistered p <;>
    cases hb : s.branchExists bn
  · exact ⟨s, by simp [performCleanup, h1, h2, h3, h4], hd, hg, hb⟩
  · refine ⟨s.gitBranchDelete bn, by simp [performCleanup, h1, h2, h3, h4], ?_, ?_, ?_⟩
    · rw [GitState.dirExists_gitBranchDelete]
      exact hd
    · rw [GitState.registered_gitBranchDelete]
      exact hg
    · exact GitState.branchExists_gitBranchDelete_self s bn
  · refine ⟨s.gitWorktreePrune, by simp [performCleanup, h1, h2, h3, h4], ?_, ?_, ?_⟩
    · rw [GitState.dirExists_prune]
      exact hd
    · exact GitState.registered_prune s p hd
    · rw [GitState.branchExists_prune]
      exact hb
  · refine ⟨s.gitWorktreePrune.gitBranchDelete bn,
      by simp [performCleanup, h1, h2, h3, h4], ?_, ?_, ?_⟩
    · rw [GitState.dirExists_gitBranchDelete, GitState.dirExists_prune]
      exact hd
    · rw [GitState.registered_gitBranchDelete]
      exact GitState.registered_prune s p hd
    · exact GitState.branchExists_gitBranchDelete_self _ bn
  · refine ⟨s.removeAllDir p, by simp [performCleanup, h1, h2, h3, h4], ?_, ?_, ?_⟩
    · exact GitState.dirExists_removeAllDir_self s p
    · rw [GitState.registered_removeAllDir]
      exact hg
    · rw [GitState.branchExists_removeAllDir]
      exact hb
  · refine ⟨(s.removeAllDir p).gitBranchDelete bn,
      by simp [performCleanup, h1, h2, h3, h4], ?_, ?_, ?_⟩
    · rw [GitState.dirExists_gitBranchDelete]
      exact GitState.dirExists_removeAllDir_self s p
    · rw [GitState.registered_gitBranchDelete, GitState.registered_removeAllDir]
      exact hg
    · exact GitState.branchExists_gitBranchDelete_self _ bn
  · refine ⟨s.gitWorktreeRemove p, by simp [performCleanup, h1, h2, h3, h4], ?_, ?_, ?_⟩
    · exact GitState.dirExists_gitWorktreeRemove_self s p
    · exact GitState.registered_gitWorktreeRemove_self s p
    · rw [GitState.branchExists_gitWorktreeRemove]
      exact hb
  · refine ⟨(s.gitWorktreeRemove p).gitBranchDelete bn,
      by simp [performCleanup, h1, h2, h3, h4], ?_, ?_, ?_⟩
    · rw [GitState.dirExists_gitBranchDelete]
      exact GitState.dirExists_gitWorktreeRemove_self s p
    · rw [GitState.registered_gitBranchDelete]
      exact GitState.registered_gitWorktreeRemove_self s p
    · exact GitState.branchExists_gitBranchDelete_self _ bn

/- ---------------------------------------------------------------------------
C4: declining the overwrite prompt is a clean, mutation-free cancellation.
--------------------------------------------------------------------------- -/

/-- C4: when a conflict exists, --force is not set, and the operator declines
the overwrite prompt, createWorktree returns the non-error cancellation (nil
with the "Cancelled - no changes made" warning) and mutates nothing: the
final state is the initial state, so the conflict signature observed after
the declined run equals the one observed before it. -/
theorem c4_decline_is_clean_cancellation :
    ∀ (s : GitState) (info : WorktreeInfo) (baseDir : String) (o : CreateOracle),
      (s.dirExists (wtPath baseDir info) || s.worktreeIsRegistered (wtPath baseDir info)
        || s.branchExists info.branchName) = true →
      o.promptYes = false →
      (Cmd.createWorktree s info baseDir false o).result = .cancelledNoChanges ∧
      (Cmd.createWorktree s info baseDir false o).state = s ∧
      (Cmd.createWorktree s info baseDir false o).warnings = [.cancelledNoChangesMade] ∧
      classify (Cmd.createWorktree s info baseDir false o).state
          (wtPath baseDir info) info.branchName
        = classify s (wtPath baseDir info) info.branchName := by
  intro s info baseDir o hconf hp
  have hout : Cmd.createWorktree s info baseDir false o =
      ⟨s, .cancelledNoChanges, [.cancelledNoChangesMade],
       some (buildConflictMessage s info (wtPath baseDir info) (wtPath baseDir info)
         (s.dirExists (wtPath baseDir info)) (s.worktreeIsRegistered (wtPath baseDir info))
         (s.branchExists info.branchName))⟩ := by
    unfold Cmd.createWorktree
    simp [hconf, hp]
  rw [hout]
  exact ⟨rfl, rfl, rfl, rfl⟩

/-- Witness for C4 at a concrete conflicted state: the target directory
already exists, the prompt is declined, and the run is a clean no-op. -/
theorem c4_decline_witness :
    (Cmd.createWorktree ⟨["wts/r/wt1"], [], [], [], []⟩
        ⟨.local, "", "r", 0, "b1", "wt1", "rp"⟩ "wts" false
        ⟨false, true, true, true, true, true, false, true, .noAction⟩).result
      = .cancelledNoChanges ∧
    (Cmd.createWorktree ⟨["wts/r/wt1"], [], [], [], []⟩
        ⟨.local, "", "r", 0, "b1", "wt1", "rp"⟩ "wts" false
        ⟨false, true, true, true, true, true, false, true, .noAction⟩).state
      = ⟨["wts/r/wt1"], [], [], [], []⟩ := by
  have h := c4_decline_is_clean_cancellation ⟨["wts/r/wt1"], [], [], [], []⟩
    ⟨.local, "", "r", 0, "b1", "wt1", "rp"⟩ "wts"
    ⟨false, true, true, true, true, true, false, true, .noAction⟩
    (by decide) rfl
  exact ⟨h.1, h.2.1⟩

/- ---------------------------------------------------------------------------
C5: action failure is downgraded to a warning; the worktree stays.
--------------------------------------------------------------------------- -/

/-- C5: for every run in which the worktree creation step succeeds, whatever
the post-creation action does — any command failure or template error
surfacing as an ActionError — the add command still returns overall success,
the created worktree is present (on disk and registered) in the final state,
and an action failure appears only as a warning naming the action. -/
theorem c5_action_failure_downgraded :
    ∀ (s : GitState) (info : WorktreeInfo) (baseDir : String) (force : Bool)
      (o : CreateOracle),
      o.worktreeRemoveOk = true → o.removeDirOk = true → o.pruneOk = true →
      o.branchDeleteOk = true → o.createOk = true →
      (force = true ∨ o.promptYes = true) →
      (Cmd.createWorktree s info baseDir force o).result = .ok ∧
      (Cmd.createWorktree s info baseDir force o).state.dirExists (wtPath baseDir info)
        = true ∧
      (Cmd.createWorktree s info baseDir force o).state.worktreeIsRegistered
        (wtPath baseDir info) = true ∧
      (∀ n e, o.post = .withAction n (some e) →
        Warning.actionFailed n e ∈ (Cmd.createWorktree s info baseDir force o).warnings) := by
  intro s info baseDir force o h1 h2 h3 h4 hc hfp
  have hgoal : ∀ s1 pm,
      (Cmd.creationStage s1 (wtPath baseDir info) info.branchName o pm).result = .ok ∧
      (Cmd.creationStage s1 (wtPath baseDir info) info.branchName o pm).state.dirExists
        (wtPath baseDir info) = true ∧
      (Cmd.creationStage s1 (wtPath baseDir info) info.branchName o
        pm).state.worktreeIsRegistered (wtPath baseDir info) = true ∧
      (∀ n e, o.post = .withAction n (some e) →
        Warning.actionFailed n e ∈
          (Cmd.creationStage s1 (wtPath baseDir info) info.branchName o pm).warnings) := by
    intro s1 pm
    rw [Cmd.creationStage_ok s1 _ _ o pm hc]
    refine ⟨executePostCreation_result o.post, by simp, by simp, ?_⟩
    intro n e hpost
    rw [hpost]
    exact executePostCreation_warn n e
  by_cases hconf : (s.dirExists (wtPath baseDir info)
      || s.worktreeIsRegistered (wtPath baseDir info)
      || s.branchExists info.branchName) = true
  · obtain ⟨s1, hs1⟩ := performCleanup_ok_any s (wtPath baseDir info) info.branchName o
      h1 h2 h3 h4 (s.dirExists (wtPath baseDir info))
      (s.worktreeIsRegistered (wtPath baseDir info)) (s.branchExists info.branchName)
    rcases hfp with hf | hp
    · subst hf
      have : Cmd.createWorktree s info baseDir true o =
          Cmd.creationStage s1 (wtPath baseDir info) info.branchName o none := by
        unfold Cmd.createWorktree Cmd.afterConfirm
        simp [hconf, hs1]
      rw [this]
      exact hgoal s1 none
    · cases force with
      | true =>
        have : Cmd.createWorktree s info baseDir true o =
            Cmd.creationStage s1 (wtPath baseDir info) info.branchName o none := by
          unfold Cmd.createWorktree Cmd.afterConfirm
          simp [hconf, hs1]
        rw [this]
        exact hgoal s1 none
      | false =>
        have : Cmd.createWorktree s info baseDir false o =
            Cmd.creationStage s1 (wtPath baseDir info) info.branchName o
              (some (buildConflictMessage s info (wtPath baseDir info) (wtPath baseDir info)
                (s.dirExists (wtPath baseDir info))
                (s.worktreeIsRegistered (wtPath baseDir info))
                (s.branchExists info.branchName))) := by
          unfold Cmd.createWorktree Cmd.afterConfirm
          simp [hconf, hp, hs1]
        rw [this]
        exact hgoal s1 _
  · have : Cmd.createWorktree s info baseDir force o =
        Cmd.creationStage s (wtPath baseDir info) info.branchName o none := by
      unfold Cmd.createWorktree
      simp [hconf]
    rw [this]
    exact hgoal s none

/-- Witness for C5 at a concrete run: empty initial state, successful
creation, and an action whose first command failed — the command still
succeeds and the failure is a warning. -/
theorem c5_action_warning_witness :
    (Cmd.createWorktree ⟨[], [], [], [], []⟩ ⟨.local, "", "r", 0, "b1", "wt1", "rp"⟩
        "wts" true ⟨true, true, true, true, true, true, false, true,
          .withAction "deploy" (some (.commandFailed "make a" 2))⟩).result = .ok ∧
    Warning.actionFailed "deploy" (.commandFailed "make a" 2) ∈
      (Cmd.createWorktree ⟨[], [], [], [], []⟩ ⟨.local, "", "r", 0, "b1", "wt1", "rp"⟩
        "wts" true ⟨true, true, true, true, true, true, false, true,
          .withAction "deploy" (some (.commandFailed "make a" 2))⟩).warnings := by
  have h := c5_action_failure_downgraded ⟨[], [], [], [], []⟩
    ⟨.local, "", "r", 0, "b1", "wt1", "rp"⟩ "wts" true
    ⟨true, true, true, true, true, true, false, true,
      .withAction "deploy" (some (.commandFailed "make a" 2))⟩
    rfl rfl rfl rfl rfl (Or.inl rfl)
  exact ⟨h.1, h.2.2.2 "deploy" (.commandFailed "make a" 2) rfl⟩

/- ---------------------------------------------------------------------------
C8: dirty-branch warning before the overwrite prompt.
--------------------------------------------------------------------------- -/

/-- A conflicted state for the dirty-branch scenario: branch feature-x exists
and is checked out at a different worktree path that has uncommitted changes,
while the target path wts/repo/wt1 is free. -/
def dirtyBranchState : GitState :=
  ⟨["wts/repo/other"], [⟨"wts/repo/other", "feature-x"⟩], ["feature-x"],
   ["wts/repo/other"], ["wts/repo/other"]⟩

/-- The creation request whose branch collides in dirtyBranchState. -/
def dirtyBranchInfo : WorktreeInfo := ⟨.local, "", "repo", 0, "feature-x", "wt1", "rp"⟩

/-- C8 counterexample: in the dirty-branch scenario the confirmation message
does contain the dirty-branch warning, but no entry of the message
interpolates the other worktree's path wts/repo/other — the warning names the
branch, not the exact path of the worktree holding it, refuting the claim. -/
theorem c8_counterexample :
    MsgEntry.warnDirtyBranch "feature-x" ∈
      buildConflictMessage dirtyBranchState dirtyBranchInfo "wts/repo/wt1" "wts/repo/wt1"
        false false true ∧
    ¬ (∃ e ∈ buildConflictMessage dirtyBranchState dirtyBranchInfo "wts/repo/wt1"
          "wts/repo/wt1" false false true,
        e.mentionsPath = some "wts/repo/other") := by
  constructor
  · decide
  · decide

/-- C8 as amended: when the requested branch exists and the worktree holding
it (found by scanning the registered worktrees for that branch) has
uncommitted changes at its own path, resolving an overwrite without --force
surfaces — in the message handed to the prompt, hence before prompting — a
destructive-action warning for that branch; the warning names the branch
(not the other worktree's path), while the dirty probe is evaluated against
the other worktree's path. -/
theorem c8_dirty_branch_warning :
    ∀ (s : GitState) (info : WorktreeInfo) (baseDir : String) (o : CreateOracle)
      (wt : WtRecord),
      s.branchExists info.branchName = true →
      s.worktrees.find? (fun r => r.branch == info.branchName) = some wt →
      s.hasUncommittedChanges wt.path = true →
      (Cmd.createWorktree s info baseDir false o).prompted =
        some (buildConflictMessage s info (wtPath baseDir info) (wtPath baseDir info)
          (s.dirExists (wtPath baseDir info))
          (s.worktreeIsRegistered (wtPath baseDir info))
          (s.branchExists info.branchName)) ∧
      MsgEntry.warnDirtyBranch info.branchName ∈
        buildConflictMessage s info (wtPath baseDir info) (wtPath baseDir info)
          (s.dirExists (wtPath baseDir info))
          (s.worktreeIsRegistered (wtPath baseDir info))
          (s.branchExists info.branchName) := by
  intro s info baseDir o wt hb hfind hdirty
  have hconf : (s.dirExists (wtPath baseDir info)
      || s.worktreeIsRegistered (wtPath baseDir info)
      || s.branchExists info.branchName) = true := by
    rw [hb]
    simp
  constructor
  · cases hp : o.promptYes with
    | true =>
      have heq : Cmd.createWorktree s info baseDir false o
          = Cmd.afterConfirm s (wtPath baseDir info) info.branchName
              (s.dirExists (wtPath baseDir info))
              (s.worktreeIsRegistered (wtPath baseDir info))
              (s.branchExists info.branchName) o
              (some (buildConflictMessage s info (wtPath baseDir info) (wtPath baseDir info)
                (s.dirExists (wtPath baseDir info))
                (s.worktreeIsRegistered (wtPath baseDir info))
                (s.branchExists info.branchName))) := by
        unfold Cmd.createWorktree
        simp [hconf, hp]
      rw [heq]
      exact Cmd.afterConfirm_prompted s _ _ _ _ _ o _
    | false =>
      unfold Cmd.createWorktree
      simp [hconf, hp]
  · unfold buildConflictMessage
    simp [hb, hfind, hdirty]

/-- Witness for C8 as amended at the concrete dirty-branch scenario. -/
theorem c8_dirty_branch_warning_witness :
    MsgEntry.warnDirtyBranch "feature-x" ∈
      buildConflictMessage dirtyBranchState dirtyBranchInfo (wtPath "wts" dirtyBranchInfo)
        (wtPath "wts" dirtyBranchInfo)
        (dirtyBranchState.dirExists (wtPath "wts" dirtyBranchInfo))
        (dirtyBranchState.worktreeIsRegistered (wtPath "wts" dirtyBranchInfo))
        (dirtyBranchState.branchExists dirtyBranchInfo.branchName) := by
  have h := c8_dirty_branch_warning dirtyBranchState dirtyBranchInfo "wts"
    ⟨false, true, true, true, true, true, false, true, .noAction⟩
    ⟨"wts/repo/other", "feature-x"⟩ (by decide) (by decide) (by decide)
  exact h.2

/- ---------------------------------------------------------------------------
C1: rollback after a failed creation attempt.
--------------------------------------------------------------------------- -/

/-- C1 counterexample: branch feature-x exists (and nothing else conflicts);
under --force the cleanup phase runs and its branch deletion fails. The
command returns that error, yet no rollback happens and the branch still
exists — the failed creation attempt does not restore an all-false signature,
refuting the claim for failures inside the cleanup phase. -/
theorem c1_counterexample :
    (Cmd.createWorktree ⟨[], [], ["feature-x"], [], []⟩
        ⟨.local, "", "repo", 0, "feature-x", "wt1", "rp"⟩ "wts" true
        ⟨true, true, true, true, false, true, false, true, .noAction⟩).result
      = .err .branchDeleteFailed ∧
    (Cmd.createWorktree ⟨[], [], ["feature-x"], [], []⟩
        ⟨.local, "", "repo", 0, "feature-x", "wt1", "rp"⟩ "wts" true
        ⟨true, true, true, true, false, true, false, true, .noAction⟩).state.branchExists
        "feature-x" = true := by
  constructor
  · rfl
  · rfl

lemma cleanup_dirs_failures (ds : List String) (o : CleanupOracle)
    (h : ∀ x, o.removeDirOk x = true) (acc : GitState × List CleanupFailure) :
    (ds.foldl (fun (a : GitState × List CleanupFailure) d =>
      if o.removeDirOk d then (a.1.removeAllDir d, a.2)
      else (a.1, a.2 ++ [.removeDirectory d])) acc).2 = acc.2 := by
  induction ds generalizing acc with
  | nil => rfl
  | cons d t ih =>
    simp only [List.foldl_cons, h d, if_pos]
    exact ih _

lemma cleanup_branches_failures (bs : List String) (o : CleanupOracle)
    (h : ∀ x, o.branchDeleteOk x = true) (acc : GitState × List CleanupFailure) :
    (bs.foldl (fun (a : GitState × List CleanupFailure) b =>
      if o.branchDeleteOk b then (a.1.gitBranchDelete b, a.2)
      else (a.1, a.2 ++ [.deleteBranch b])) acc).2 = acc.2 := by
  induction bs generalizing acc with
  | nil => rfl
  | cons b t ih =>
    simp only [List.foldl_cons, h b, if_pos]
    exact ih _

lemma cleanup_dirs_allfail (ds : List String) (o : CleanupOracle)
    (h : ∀ x, o.removeDirOk x = false) (acc : GitState × List CleanupFailure) :
    (ds.foldl (fun (a : GitState × List CleanupFailure) d =>
      if o.removeDirOk d then (a.1.removeAllDir d, a.2)
      else (a.1, a.2 ++ [.removeDirectory d])) acc)
      = (acc.1, acc.2 ++ ds.map CleanupFailure.removeDirectory) := by
  induction ds generalizing acc with
  | nil => simp
  | cons d t ih =>
    simp only [List.foldl_cons, h d, Bool.false_eq_true, if_false, if_neg, List.map_cons]
    rw [ih]
    simp

lemma cleanup_branches_allfail (bs : List String) (o : CleanupOracle)
    (h : ∀ x, o.branchDeleteOk x = false) (acc : GitState × List CleanupFailure) :
    (bs.foldl (fun (a : GitState × List CleanupFailure) b =>
      if o.branchDeleteOk b then (a.1.gitBranchDelete b, a.2)
      else (a.1, a.2 ++ [.deleteBranch b])) acc)
      = (acc.1, acc.2 ++ bs.map CleanupFailure.deleteBranch) := by
  induction bs generalizing acc with
  | nil => simp
  | cons b t ih =>
    simp only [List.foldl_cons, h b, Bool.false_eq_true, if_false, if_neg, List.map_cons]
    rw [ih]
    simp

/-- C1 as amended: for every creation attempt whose conflict-cleanup
operations all succeed but whose worktree-add step itself fails (and whose
best-effort rollback removal succeeds when the failed add left a directory
behind), the attempt ends with the all-false signature — the target path does
not exist on disk, is not registered, and the branch does not exist; the
error returned is always the original creation error, whatever the rollback
outcome (the rollback removal's own failure is discarded, not joined into the
returned error); and Creator.Cleanup aggregates its per-resource rollback
failures into its own joined result — empty when all rollback operations
succeed, one entry per recorded resource when they all fail. -/
theorem c1_failed_creation_rollback :
    ∀ (s : GitState) (info : WorktreeInfo) (baseDir : String) (force : Bool)
      (o : CreateOracle),
      o.worktreeRemoveOk = true → o.removeDirOk = true → o.pruneOk = true →
      o.branchDeleteOk = true → o.createOk = false →
      (o.createLeftDir = true → o.rollbackRemoveOk = true) →
      (force = true ∨ o.promptYes = true) →
      ((Cmd.createWorktree s info baseDir force o).result = .err .createFailed ∧
       (Cmd.createWorktree s info baseDir force o).state.dirExists (wtPath baseDir info)
         = false ∧
       (Cmd.createWorktree s info baseDir force o).state.worktreeIsRegistered
         (wtPath baseDir info) = false ∧
       (Cmd.createWorktree s info baseDir force o).state.branchExists info.branchName
         = false) ∧
      (∀ (o2 : CreateOracle), o2.worktreeRemoveOk = true → o2.removeDirOk = true →
        o2.pruneOk = true → o2.branchDeleteOk = true → o2.createOk = false →
        (force = true ∨ o2.promptYes = true) →
        (Cmd.createWorktree s info baseDir force o2).result = .err .createFailed) ∧
      (∀ (s0 : GitState) (ds bs : List String) (oc : CleanupOracle),
        ((∀ x, oc.removeDirOk x = true) → (∀ x, oc.branchDeleteOk x = true) →
          (creatorCleanup s0 ds bs oc).2 = []) ∧
        ((∀ x, oc.removeDirOk x = false) → (∀ x, oc.branchDeleteOk x = false) →
          (creatorCleanup s0 ds bs oc).2
            = ds.map CleanupFailure.removeDirectory ++ bs.map CleanupFailure.deleteBranch)) := by
  intro s info baseDir force o h1 h2 h3 h4 hc hroll hfp
  have hmain : ∀ (o3 : CreateOracle), o3.worktreeRemoveOk = true → o3.removeDirOk = true →
      o3.pruneOk = true → o3.branchDeleteOk = true → o3.createOk = false →
      (force = true ∨ o3.promptYes = true) →
      (o3.createLeftDir = true → o3.rollbackRemoveOk = true) →
      (Cmd.createWorktree s info baseDir force o3).result = .err .createFailed ∧
      (Cmd.createWorktree s info baseDir force o3).state.dirExists (wtPath baseDir info)
        = false ∧
      (Cmd.createWorktree s info baseDir force o3).state.worktreeIsRegistered
        (wtPath baseDir info) = false ∧
      (Cmd.createWorktree s info baseDir force o3).state.branchExists info.branchName
        = false := by
    intro o3 g1 g2 g3 g4 gc gfp groll
    obtain ⟨s1, hs1, hs1d, hs1r, hs1b⟩ := performCleanup_restores s (wtPath baseDir info)
      info.branchName o3 g1 g2 g3 g4
    by_cases hconf : (s.dirExists (wtPath baseDir info)
        || s.worktreeIsRegistered (wtPath baseDir info)
        || s.branchExists info.branchName) = true
    · have hred : ∀ pm, Cmd.afterConfirm s (wtPath baseDir info) info.branchName
          (s.dirExists (wtPath baseDir info)) (s.worktreeIsRegistered (wtPath baseDir info))
          (s.branchExists info.branchName) o3 pm
          = Cmd.creationStage s1 (wtPath baseDir info) info.branchName o3 pm := by
        intro pm
        unfold Cmd.afterConfirm
        rw [hs1]
      rcases gfp with hf | hp
      · subst hf
        have heq : Cmd.createWorktree s info baseDir true o3 =
            Cmd.creationStage s1 (wtPath baseDir info) info.branchName o3 none := by
          unfold Cmd.createWorktree
          simp only [hconf, if_pos, Bool.not_true, Bool.false_eq_true, if_false, if_neg]
          exact hred none
        rw [heq]
        exact Cmd.creationStage_fail s1 _ _ o3 none gc groll hs1d hs1r hs1b
      · cases force with
        | true =>
          have heq : Cmd.createWorktree s info baseDir true o3 =
              Cmd.creationStage s1 (wtPath baseDir info) info.branchName o3 none := by
            unfold Cmd.createWorktree
            simp only [hconf, if_pos, Bool.not_true, Bool.false_eq_true, if_false, if_neg]
            exact hred none
          rw [heq]
          exact Cmd.creationStage_fail s1 _ _ o3 none gc groll hs1d hs1r hs1b
        | false =>
          have heq : Cmd.createWorktree s info baseDir false o3 =
              Cmd.creationStage s1 (wtPath baseDir info) info.branchName o3
                (some (buildConflictMessage s info (wtPath baseDir info)
                  (wtPath baseDir info) (s.dirExists (wtPath baseDir info))
                  (s.worktreeIsRegistered (wtPath baseDir info))
                  (s.branchExists info.branchName))) := by
            unfold Cmd.createWorktree
            simp only [hconf, if_pos, Bool.not_false, if_true, hp]
            exact hred _
          rw [heq]
          exact Cmd.creationStage_fail s1 _ _ o3 _ gc groll hs1d hs1r hs1b
    · have hbits : s.dirExists (wtPath baseDir info) = false ∧
          s.worktreeIsRegistered (wtPath baseDir info) = false ∧
          s.branchExists info.branchName = false := by
        constructor
        · cases hx : s.dirExists (wtPath baseDir info)
          · rfl
          · exact absurd (by rw [hx]; simp) hconf
        constructor
        · cases hx : s.worktreeIsRegistered (wtPath baseDir info)
          · rfl
          · exact absurd (by rw [hx]; simp) hconf
        · cases hx : s.branchExists info.branchName
          · rfl
          · exact absurd (by rw [hx]; simp) hconf
      have heq : Cmd.createWorktree s info baseDir force o3 =
          Cmd.creationStage s (wtPath baseDir info) info.branchName o3 none := by
        unfold Cmd.createWorktree
        simp [hconf]
      rw [heq]
      exact Cmd.creationStage_fail s _ _ o3 none gc groll hbits.1 hbits.2.1 hbits.2.2
  refine ⟨hmain o h1 h2 h3 h4 hc hfp hroll, ?_, ?_⟩
  · intro o2 g1 g2 g3 g4 gc gfp
    obtain ⟨s1, hs1⟩ := performCleanup_ok_any s (wtPath baseDir info) info.branchName o2
      g1 g2 g3 g4 (s.dirExists (wtPath baseDir info))
      (s.worktreeIsRegistered (wtPath baseDir info)) (s.branchExists info.branchName)
    by_cases hconf : (s.dirExists (wtPath baseDir info)
        || s.worktreeIsRegistered (wtPath baseDir info)
        || s.branchExists info.branchName) = true
    · rcases gfp with hf | hp
      · subst hf
        have heq : Cmd.createWorktree s info baseDir true o2 =
            Cmd.creationStage s1 (wtPath baseDir info) info.branchName o2 none := by
          unfold Cmd.createWorktree Cmd.afterConfirm
          simp [hconf, hs1]
        rw [heq]
        exact Cmd.creationStage_result_fail s1 _ _ o2 none gc
      · cases force with
        | true =>
          have heq : Cmd.createWorktree s info baseDir true o2 =
              Cmd.creationStage s1 (wtPath baseDir info) info.branchName o2 none := by
            unfold Cmd.createWorktree Cmd.afterConfirm
            simp [hconf, hs1]
          rw [heq]
          exact Cmd.creationStage_result_fail s1 _ _ o2 none gc
        | false =>
          have heq : Cmd.createWorktree s info baseDir false o2 =
              Cmd.creationStage s1 (wtPath baseDir info) info.branchName o2
                (some (buildConflictMessage s info (wtPath baseDir info)
                  (wtPath baseDir info) (s.dirExists (wtPath baseDir info))
                  (s.worktreeIsRegistered (wtPath baseDir info))
                  (s.branchExists info.branchName))) := by
            unfold Cmd.createWorktree Cmd.afterConfirm
            simp [hconf, hp, hs1]
          rw [heq]
          exact Cmd.creationStage_result_fail s1 _ _ o2 _ gc
    · have heq : Cmd.createWorktree s info baseDir force o2 =
          Cmd.creationStage s (wtPath baseDir info) info.branchName o2 none := by
        unfold Cmd.createWorktree
        simp [hconf]
      rw [heq]
      exact Cmd.creationStage_result_fail s _ _ o2 none gc
  · intro s0 ds bs oc
    constructor
    · intro hd hb
      unfold creatorCleanup
      rw [cleanup_branches_failures bs oc hb, cleanup_dirs_failures ds oc hd]
    · intro hd hb
      unfold creatorCleanup
      rw [cleanup_branches_allfail bs oc hb, cleanup_dirs_allfail ds oc hd]
      simp

/-- Witness for C1 as amended: empty initial state, creation fails leaving a
directory behind, the rollback removal succeeds; the run ends with the
original creation error and the all-false signature. -/
theorem c1_failed_creation_rollback_witness :
    (Cmd.createWorktree ⟨[], [], [], [], []⟩ ⟨.local, "", "r", 0, "b1", "wt1", "rp"⟩
        "wts" true ⟨true, true, true, true, true, false, true, true, .noAction⟩).result
      = .err .createFailed ∧
    (Cmd.createWorktree ⟨[], [], [], [], []⟩ ⟨.local, "", "r", 0, "b1", "wt1", "rp"⟩
        "wts" true ⟨true, true, true, true, true, false, true, true,
          .noAction⟩).state.dirExists (wtPath "wts" ⟨.local, "", "r", 0, "b1", "wt1", "rp"⟩)
      = false := by
  have h := c1_failed_creation_rollback ⟨[], [], [], [], []⟩
    ⟨.local, "", "r", 0, "b1", "wt1", "rp"⟩ "wts" true
    ⟨true, true, true, true, true, false, true, true, .noAction⟩
    rfl rfl rfl rfl rfl (fun _ => rfl) (Or.inl rfl)
  exact ⟨h.1.1, h.1.2.1⟩

/- ---------------------------------------------------------------------------
C3: the attach decision.
--------------------------------------------------------------------------- -/

lemma preludeMkdir_ok_inv (s : GitState) (wb : String) (o : SetupOracle)
    (acc : GitState × List GitOp) (h : Worktree.preludeMkdir s wb o = .ok acc) :
    acc.1.branches = s.branches ∧ ∀ bd, GitOp.branchDelete bd ∉ acc.2 := by
  unfold Worktree.preludeMkdir at h
  by_cases hm : o.mkdirOk = true
  · rw [if_pos hm] at h
    cases h
    exact ⟨GitState.addDir_branches s wb, by simp⟩
  · rw [if_neg hm] at h
    cases h

lemma preludeClone_ok_inv (info : WorktreeInfo) (rp : String) (o : SetupOracle)
    (acc acc2 : GitState × List GitOp) (h : Worktree.preludeClone info rp o acc = .ok acc2)
    (hacc : ∀ bd, GitOp.branchDelete bd ∉ acc.2) :
    acc2.1.branches = acc.1.branches ∧ ∀ bd, GitOp.branchDelete bd ∉ acc2.2 := by
  unfold Worktree.preludeClone at h
  by_cases hc : (info.ty != WtType.local && !(acc.1.dirExists rp)) = true
  · rw [if_pos hc] at h
    by_cases hcl : o.cloneOk = true
    · rw [if_pos hcl] at h
      by_cases hcr : o.configRemoteOk = true
      · rw [if_pos hcr] at h
        cases h
        refine ⟨GitState.addDir_branches _ rp, ?_⟩
        intro bd hmem
        rcases List.mem_append.mp hmem with h0 | h1
        · exact hacc bd h0
        · simp at h1
      · rw [if_neg hcr] at h
        cases h
    · rw [if_neg hcl] at h
      cases h
  · rw [if_neg hc] at h
    cases h
    exact ⟨rfl, hacc⟩

lemma preludeStale_ok_inv (wp : String) (o : SetupOracle)
    (acc acc2 : GitState × List GitOp) (h : Worktree.preludeStale wp o acc = .ok acc2)
    (hacc : ∀ bd, GitOp.branchDelete bd ∉ acc.2) :
    acc2.1.branches = acc.1.branches ∧ ∀ bd, GitOp.branchDelete bd ∉ acc2.2 := by
  unfold Worktree.preludeStale at h
  by_cases hd : acc.1.dirExists wp = true
  · rw [if_pos hd] at h
    cases h
  · rw [if_neg hd] at h
    by_cases hr : acc.1.worktreeIsRegistered wp = true
    · rw [if_pos hr] at h
      by_cases hs : o.staleRemoveOk = true
      · rw [if_pos hs] at h
        cases h
        refine ⟨GitState.gitWorktreeRemove_branches _ wp, ?_⟩
        intro bd hmem
        rcases List.mem_append.mp hmem with h0 | h1
        · exact hacc bd h0
        · simp at h1
      · rw [if_neg hs] at h
        cases h
    · rw [if_neg hr] at h
      cases h
      exact ⟨rfl, hacc⟩

lemma setupPrelude_ok_inv (s : GitState) (info : WorktreeInfo) (baseDir : String)
    (o : SetupOracle) (s1 : GitState) (ops0 : List GitOp)
    (h : Worktree.setupPrelude s info baseDir o = .ok (s1, ops0)) :
    s1.branches = s.branches ∧ ∀ bd, GitOp.branchDelete bd ∉ ops0 := by
  unfold Worktree.setupPrelude at h
  rcases h1 : Worktree.preludeMkdir s (joinPath baseDir info.repo) o with e1 | acc1
  · rw [h1] at h
    cases h
  · rw [h1] at h
    dsimp only at h
    rcases h2 : Worktree.preludeClone info (Worktree.repoPathOf info baseDir) o acc1
        with e2 | acc2
    · rw [h2] at h
      cases h
    · rw [h2] at h
      dsimp only at h
      obtain ⟨hb1, hn1⟩ := preludeMkdir_ok_inv s _ o acc1 h1
      obtain ⟨hb2, hn2⟩ := preludeClone_ok_inv info _ o acc1 acc2 h2 hn1
      obtain ⟨hb3, hn3⟩ := preludeStale_ok_inv (wtPath baseDir info) o acc2 (s1, ops0) h hn2
      exact ⟨by rw [hb3, hb2, hb1], hn3⟩

/-- C3 counterexample: branch feature-x exists and the branch-check decision
is Attach; the run succeeds but the transaction records no created directory
at all (createdDirs is empty, not the one-element list the claim states). -/
theorem c3_counterexample :
    (Worktree.setupWorktree ⟨[], [], ["feature-x"], [], []⟩
        ⟨.local, "o", "repo", 0, "feature-x", "wt1", "repo-git"⟩ "wts"
        (some (fun _ => .attach)) ⟨true, true, true, true, true, true⟩).result = .ok () ∧
    (Worktree.setupWorktree ⟨[], [], ["feature-x"], [], []⟩
        ⟨.local, "o", "repo", 0, "feature-x", "wt1", "repo-git"⟩ "wts"
        (some (fun _ => .attach)) ⟨true, true, true, true, true, true⟩).createdDirs = [] ∧
    ¬ ((Worktree.setupWorktree ⟨[], [], ["feature-x"], [], []⟩
        ⟨.local, "o", "repo", 0, "feature-x", "wt1", "repo-git"⟩ "wts"
        (some (fun _ => .attach)) ⟨true, true, true, true, true, true⟩).createdDirs
      = [wtPath "wts" ⟨.local, "o", "repo", 0, "feature-x", "wt1", "repo-git"⟩]) := by
  refine ⟨rfl, rfl, ?_⟩
  decide

/-- C3 as amended: under the Attach decision (after a successful prelude),
the creator deletes no branch and creates none (the final branch set is the
initial one and no branch-delete operation is ever attempted), adds the
worktree via the add-from-existing-branch operation — for PullRequest kind
fetching the PR head ref immediately before it — and records nothing in the
transaction: created directories and created branches are both empty. -/
theorem c3_attach_records_nothing :
    ∀ (s : GitState) (info : WorktreeInfo) (baseDir : String)
      (check : String → BranchAction) (o : SetupOracle) (s1 : GitState)
      (ops0 : List GitOp),
      Worktree.setupPrelude s info baseDir o = .ok (s1, ops0) →
      check (Worktree.setupBranchName info) = .attach →
      o.fetchOk = true → o.addOk = true →
      (Worktree.setupWorktree s info baseDir (some check) o).result = .ok () ∧
      (Worktree.setupWorktree s info baseDir (some check) o).createdDirs = [] ∧
      (Worktree.setupWorktree s info baseDir (some check) o).createdBranches = [] ∧
      (Worktree.setupWorktree s info baseDir (some check) o).state.branches = s.branches ∧
      (∀ bd, GitOp.branchDelete bd ∉ (Worktree.setupWorktree s info baseDir (some check) o).ops) ∧
      (Worktree.setupWorktree s info baseDir (some check) o).ops =
        ops0 ++ (match info.ty with
          | .pr => [.fetch (Worktree.prRefOf info),
              .worktreeAddFromBranch (Worktree.setupBranchName info) (wtPath baseDir info)]
          | _ => [.worktreeAddFromBranch (Worktree.setupBranchName info)
              (wtPath baseDir info)]) := by
  intro s info baseDir check o s1 ops0 hpre hatt hf ha
  obtain ⟨hbr, hnd⟩ := setupPrelude_ok_inv s info baseDir o s1 ops0 hpre
  have heq : Worktree.setupWorktree s info baseDir (some check) o =
      Worktree.attachStage s1 info (Worktree.setupBranchName info) (wtPath baseDir info)
        ops0 o := by
    unfold Worktree.setupWorktree
    rw [hpre]
    dsimp only
    rw [hatt]
  rw [heq]
  cases hty : info.ty
  · have hstage : Worktree.attachStage s1 info (Worktree.setupBranchName info)
        (wtPath baseDir info) ops0 o =
        ⟨s1.gitWorktreeAddFromBranch (Worktree.setupBranchName info) (wtPath baseDir info),
         [], [], ops0 ++ [.worktreeAddFromBranch (Worktree.setupBranchName info)
           (wtPath baseDir info)], .ok ()⟩ := by
      unfold Worktree.attachStage
      rw [hty]
      simp [ha]
    rw [hstage]
    refine ⟨rfl, rfl, rfl, ?_, ?_, rfl⟩
    · rw [GitState.branches_addFromBranch]
      exact hbr
    · intro bd hmem
      rcases List.mem_append.mp hmem with h0 | h1
      · exact hnd bd h0
      · simp at h1
  · have hstage : Worktree.attachStage s1 info (Worktree.setupBranchName info)
        (wtPath baseDir info) ops0 o =
        ⟨s1.gitWorktreeAddFromBranch (Worktree.setupBranchName info) (wtPath baseDir info),
         [], [], ops0 ++ [.fetch (Worktree.prRefOf info),
           .worktreeAddFromBranch (Worktree.setupBranchName info) (wtPath baseDir info)],
         .ok ()⟩ := by
      unfold Worktree.attachStage
      rw [hty]
      simp [hf, ha]
    rw [hstage]
    refine ⟨rfl, rfl, rfl, ?_, ?_, rfl⟩
    · rw [GitState.branches_addFromBranch]
      exact hbr
    · intro bd hmem
      rcases List.mem_append.mp hmem with h0 | h1
      · exact hnd bd h0
      · simp at h1
  · have hstage : Worktree.attachStage s1 info (Worktree.setupBranchName info)
        (wtPath baseDir info) ops0 o =
        ⟨s1.gitWorktreeAddFromBranch (Worktree.setupBranchName info) (wtPath baseDir info),
         [], [], ops0 ++ [.worktreeAddFromBranch (Worktree.setupBranchName info)
           (wtPath baseDir info)], .ok ()⟩ := by
      unfold Worktree.attachStage
      rw [hty]
      simp [ha]
    rw [hstage]
    refine ⟨rfl, rfl, rfl, ?_, ?_, rfl⟩
    · rw [GitState.branches_addFromBranch]
      exact hbr
    · intro bd hmem
      rcases List.mem_append.mp hmem with h0 | h1
      · exact hnd bd h0
      · simp at h1

/-- Witness for C3 as amended at a concrete PR attach run: the PR head ref is
fetched immediately before attaching, and nothing is recorded. -/
theorem c3_attach_records_nothing_witness :
    (Worktree.setupWorktree ⟨["wts/repo/.bare"], [], ["feature-x"], [], []⟩
        ⟨.pr, "o", "repo", 5, "feature-x", "pr_5", ""⟩ "wts"
        (some (fun _ => .attach)) ⟨true, true, true, true, true, true⟩).createdDirs = [] ∧
    (Worktree.setupWorktree ⟨["wts/repo/.bare"], [], ["feature-x"], [], []⟩
        ⟨.pr, "o", "repo", 5, "feature-x", "pr_5", ""⟩ "wts"
        (some (fun _ => .attach)) ⟨true, true, true, true, true, true⟩).ops =
      [.mkdirAll "wts/repo"] ++
        [.fetch "refs/pull/5/head", .worktreeAddFromBranch "feature-x" "wts/repo/pr_5"] := by
  have h := c3_attach_records_nothing ⟨["wts/repo/.bare"], [], ["feature-x"], [], []⟩
    ⟨.pr, "o", "repo", 5, "feature-x", "pr_5", ""⟩ "wts" (fun _ => .attach)
    ⟨true, true, true, true, true, true⟩
    ⟨["wts/repo", "wts/repo/.bare"], [], ["feature-x"], [], []⟩ [.mkdirAll "wts/repo"]
    (by rfl) rfl rfl rfl
  exact ⟨h.2.1, h.2.2.2.2.2⟩

/- ---------------------------------------------------------------------------
C9: idempotent removal with direct-deletion fallback.
--------------------------------------------------------------------------- -/

lemma removeStep_mem_of_removeFail (s : GitState) (wp ep : String) (o : RemoveOracle)
    (hw : o.worktreeRemoveOk = false) :
    GitOp.removeAllDir wp ∈ (Worktree.removeStep s wp ep o).2.1 := by
  unfold Worktree.removeStep
  by_cases he : (ep != "") = true
  · rw [if_pos he, hw, if_neg Bool.false_ne_true]
    by_cases hra : o.removeAllOk = true
    · rw [if_pos hra]
      simp
    · rw [if_neg hra]
      simp
  · rw [if_neg he]
    by_cases hra : o.removeAllOk = true
    · rw [if_pos hra]
      simp
    · rw [if_neg hra]
      simp

lemma removeStep_mem_of_noexact (s : GitState) (wp : String) (o : RemoveOracle) :
    GitOp.removeAllDir wp ∈ (Worktree.removeStep s wp "" o).2.1 := by
  unfold Worktree.removeStep
  rw [if_neg (by decide)]
  by_cases hra : o.removeAllOk = true
  · rw [if_pos hra]
    simp
  · rw [if_neg hra]
    simp

lemma resolveExact_of_listFail (s : GitState) (o : RemoveOracle) (wp : String)
    (hl : o.listOk = false) : Worktree.resolveExact s o wp = "" := by
  unfold Worktree.resolveExact listWorktrees
  rw [hl, if_neg Bool.false_ne_true]

lemma remove_mem_of_step (s : GitState) (rp wp b : String) (force : Bool)
    (o : RemoveOracle) (hgate : (!force && s.hasUncommittedChanges wp) = false)
    (hmem : GitOp.removeAllDir wp ∈
      (Worktree.removeStep s wp (Worktree.resolveExact s o wp) o).2.1) :
    GitOp.removeAllDir wp ∈ (Worktree.Remove s rp wp b force o).2.1 := by
  unfold Worktree.Remove
  rw [if_neg (by simp [hgate])]
  rcases hstep : Worktree.removeStep s wp (Worktree.resolveExact s o wp) o
    with ⟨s1, ops1, oe⟩
  rw [hstep] at hmem
  cases oe with
  | some e => exact hmem
  | none =>
    dsimp only
    by_cases hbd : o.branchDeleteOk = true
    · rw [if_pos hbd]
      exact List.mem_append.mpr (Or.inl hmem)
    · rw [if_neg hbd]
      exact List.mem_append.mpr (Or.inl hmem)

/-- C9: removal is idempotent and falls back to direct deletion. Removing a
path that does not exist on disk — whether named via a URL-derived request or
by a worktree name no repo directory contains — is a no-op success (the
"not found, nothing to remove" path) that mutates nothing, so removing an
already-removed worktree succeeds; and inside worktree.Remove, when the
git-level remove fails, or when listing finds no registered path (including a
failed listing, i.e. git metadata inconsistent with disk), the direct
recursive directory deletion is attempted. -/
theorem c9_remove_idempotent_fallback :
    (∀ (s : GitState) (baseDir : String) (entries : List String) (info : WorktreeInfo)
       (force : Bool) (o : RemoveOracle),
       s.dirExists (wtPath baseDir info) = false →
       Cmd.runRemove s baseDir entries (.url info) force o = (s, .notFoundNoop)) ∧
    (∀ (s : GitState) (baseDir : String) (entries : List String) (n : String)
       (force : Bool) (o : RemoveOracle),
       (∀ r ∈ entries, s.dirExists (joinPath (joinPath baseDir r) n) = false) →
       Cmd.runRemove s baseDir entries (.name n) force o = (s, .notFoundNoop)) ∧
    (∀ (s : GitState) (rp wp b : String) (force : Bool) (o : RemoveOracle),
       (force = true ∨ s.hasUncommittedChanges wp = false) →
       o.worktreeRemoveOk = false →
       GitOp.removeAllDir wp ∈ (Worktree.Remove s rp wp b force o).2.1) ∧
    (∀ (s : GitState) (rp wp b : String) (force : Bool) (o : RemoveOracle),
       (force = true ∨ s.hasUncommittedChanges wp = false) →
       o.listOk = false →
       GitOp.removeAllDir wp ∈ (Worktree.Remove s rp wp b force o).2.1) := by
  have hgate : ∀ (s : GitState) (wp : String) (force : Bool),
      (force = true ∨ s.hasUncommittedChanges wp = false) →
      (!force && s.hasUncommittedChanges wp) = false := by
    intro s wp force h
    rcases h with h | h
    · rw [h]
      simp
    · rw [h]
      simp
  refine ⟨?_, ?_, ?_, ?_⟩
  · intro s baseDir entries info force o h
    unfold Cmd.runRemove Cmd.removePhase
    simp [h]
  · intro s baseDir entries n force o h
    have hfind : entries.find? (fun r => s.dirExists (joinPath (joinPath baseDir r) n))
        = none := by
      apply List.find?_eq_none.mpr
      intro r hr
      rw [h r hr]
      simp
    unfold Cmd.runRemove Cmd.findWorktree
    simp [hfind]
  · intro s rp wp b force o hg hw
    exact remove_mem_of_step s rp wp b force o (hgate s wp force hg)
      (removeStep_mem_of_removeFail s wp (Worktree.resolveExact s o wp) o hw)
  · intro s rp wp b force o hg hl
    have hex : Worktree.resolveExact s o wp = "" := resolveExact_of_listFail s o wp hl
    refine remove_mem_of_step s rp wp b force o (hgate s wp force hg) ?_
    rw [hex]
    exact removeStep_mem_of_noexact s wp o

/-- Witness for C9 at concrete inputs: removing a never-created worktree is a
no-op success, and a failed git-level remove falls back to direct deletion. -/
theorem c9_remove_idempotent_fallback_witness :
    Cmd.runRemove ⟨[], [], [], [], []⟩ "wts" ["repo"] (.name "wt1") false
        ⟨true, true, true, true, true, true, true⟩ = (⟨[], [], [], [], []⟩, .notFoundNoop) ∧
    GitOp.removeAllDir "wts/repo/wt1" ∈
      (Worktree.Remove ⟨["wts/repo/wt1"], [⟨"wts/repo/wt1", "b1"⟩], ["b1"], [], []⟩
        ".bare" "wts/repo/wt1" "b1" true
        ⟨true, false, true, true, true, true, true⟩).2.1 := by
  constructor
  · exact c9_remove_idempotent_fallback.2.1 ⟨[], [], [], [], []⟩ "wts" ["repo"] "wt1" false
      ⟨true, true, true, true, true, true, true⟩ (by decide)
  · exact c9_remove_idempotent_fallback.2.2.1
      ⟨["wts/repo/wt1"], [⟨"wts/repo/wt1", "b1"⟩], ["b1"], [], []⟩ ".bare" "wts/repo/wt1"
      "b1" true ⟨true, false, true, true, true, true, true⟩ (Or.inl rfl) rfl

end GhWt
